import Mathlib

/-!
# Verification of the STAKE token contract core

A shallow embedding of the batched-staking contract
(`src/contract/src/contract/staking_service.rs` and the `domain` modules),
with theorems settling the specification's claims about exchange-rate
computation, batch accumulation, receipt claiming, the liquidity pool, and
NEAR withdrawals.

Machine integers (`u128`) are embedded as `Nat`; every arithmetic operation
that can abort at runtime (overflow/underflow panics, `U256::as_u128`
narrowing) is modelled as an `Option`/`Except` returning `none`/`.error` at
exactly the inputs where the Rust code panics.  A NEAR contract call that
panics rolls back every state mutation of the invocation, so an operation is
embedded as a function from the pre-state to `Except Err post-state`: the
error case carries no state, mirroring the all-or-nothing transaction
semantics.
-/

namespace StakeToken

/-- Upper bound (exclusive) of `u128` values. -/
def U128_BOUND : Nat := 2 ^ 128

/-- `YOCTO`: 1 NEAR (or 1 STAKE) in yocto units, `10^24` (`src/near.rs`). -/
def YOCTO : Nat := 10 ^ 24

/-- `U256::as_u128` (primitive_types): returns the value when it fits in
128 bits and panics otherwise.  Panic is modelled as `none`. -/
def as_u128 (n : Nat) : Option Nat :=
  if n < U128_BOUND then some n else none

/-- Modelled from the spec: addition of two `u128` token amounts
(`impl Add for YoctoNear` / `YoctoStake`, which is `self.0 + rhs.0`).  The
spec describes the balance primitives as checked ("saturating-checked
add/sub ... never wrap"): the build profile enabling overflow checks is not
under `src/`, so overflow is modelled as an abort (`none`), never as a
wrapped value. -/
def checkedAdd (a b : Nat) : Option Nat :=
  if a + b < U128_BOUND then some (a + b) else none

/-- Modelled from the spec: subtraction of two `u128` token amounts
(`impl Sub for YoctoNear` / `YoctoStake`, which is `self.0 - rhs.0`).
Underflow aborts (`none`); the result never wraps around. -/
def checkedSub (a b : Nat) : Option Nat :=
  if b ≤ a then some (a - b) else none

/-!
## `domain::StakeTokenValue` (`src/contract/src/domain/stake_token_value.rs`)

The `block_time_height` triple (block height, timestamp, epoch) is carried
by the Rust struct but never inspected by any code a claim touches; it is
embedded as a single opaque `Nat` that the functions merely copy.
-/

structure StakeTokenValue where
  block_time_height : Nat
  /-- `u128` total staked NEAR balance. -/
  total_staked_near_balance : Nat
  /-- `u128` total STAKE token supply. -/
  total_stake_supply : Nat
  deriving Repr, DecidableEq

/-- `StakeTokenValue::new`: if the given staked balance is below the supply
it is silently replaced by the supply (the STAKE value is never allowed
below 1:1). -/
def StakeTokenValue.new (bth bal supply : Nat) : StakeTokenValue :=
  if bal < supply then
    { block_time_height := bth
      total_staked_near_balance := supply
      total_stake_supply := supply }
  else
    { block_time_height := bth
      total_staked_near_balance := bal
      total_stake_supply := supply }

/-- `StakeTokenValue::near_to_stake`: converts NEAR to STAKE rounded down,
`near * total_stake_supply / total_staked_near_balance` computed in `U256`
and narrowed with `as_u128`; degrades to 1:1 when either field is zero. -/
def StakeTokenValue.near_to_stake (v : StakeTokenValue) (near : Nat) : Option Nat :=
  if v.total_staked_near_balance = 0 ∨ v.total_stake_supply = 0 then
    some near
  else
    as_u128 (near * v.total_stake_supply / v.total_staked_near_balance)

/-- `StakeTokenValue::stake_to_near`: converts STAKE to NEAR rounded down,
`stake * total_staked_near_balance / total_stake_supply` computed in `U256`
and narrowed with `as_u128`; degrades to 1:1 when either field is zero. -/
def StakeTokenValue.stake_to_near (v : StakeTokenValue) (stake : Nat) : Option Nat :=
  if v.total_staked_near_balance = 0 ∨ v.total_stake_supply = 0 then
    some stake
  else
    as_u128 (stake * v.total_staked_near_balance / v.total_stake_supply)

/-!
## Batches and receipts

`domain::StakeBatch`, `domain::RedeemStakeBatch`, the two receipt types and
the timestamped balances live in repository files that are not under `src/`
(`domain.rs` declares them; only their call sites and tests are available).
They are modelled from the spec (§3 "Batch & Receipt model"), with the
method semantics cross-checked against the unit tests in
`staking_service.rs`:
- a batch is `{id, balance}`; `add` increases the balance, `remove`
  decreases it and the caller deletes the batch when the returned balance
  is zero;
- a receipt is created once per processed batch with the batch's amount and
  the exchange-rate snapshot; `stake_tokens_issued` /
  `stake_tokens_redeemed` decrement the remaining unclaimed amount and
  `all_claimed` holds when it reaches zero;
- the timestamped balances reduce to their `u128` amount (the timestamps
  are never read by the claimed code); `credit`/`debit` are the checked
  add/sub.
Both batch kinds carry a bare `u128` amount, so one Lean structure serves
for `StakeBatch` (NEAR balance) and `RedeemStakeBatch` (STAKE balance).
-/

structure Batch where
  /-- `BatchId`, a `u128` from the contract-wide sequence. -/
  id : Nat
  /-- `u128` batch balance (NEAR for stake batches, STAKE for redeem ones). -/
  balance : Nat
  deriving Repr, DecidableEq

/-- Modelled from the spec: `Batch::add` credits the balance (checked). -/
def Batch.add (b : Batch) (amount : Nat) : Option Batch :=
  (checkedAdd b.balance amount).map fun n => { b with balance := n }

/-- Modelled from the spec: `Batch::remove` debits the balance (checked);
the new balance signals deletion when zero. -/
def Batch.remove (b : Batch) (amount : Nat) : Option Batch :=
  (checkedSub b.balance amount).map fun n => { b with balance := n }

/-- Modelled from the spec: `domain::StakeBatchReceipt`, the settlement
snapshot of a processed stake batch: the NEAR amount still unclaimed and
the exchange rate the batch was staked at. -/
structure StakeBatchReceipt where
  staked_near : Nat
  stake_token_value : StakeTokenValue
  deriving Repr, DecidableEq

/-- Modelled from the spec: `StakeBatchReceipt::stake_tokens_issued` marks
`amount` of the staked NEAR as claimed. -/
def StakeBatchReceipt.stake_tokens_issued (r : StakeBatchReceipt) (amount : Nat) :
    Option StakeBatchReceipt :=
  (checkedSub r.staked_near amount).map fun n => { r with staked_near := n }

/-- Modelled from the spec: `StakeBatchReceipt::all_claimed`. -/
def StakeBatchReceipt.all_claimed (r : StakeBatchReceipt) : Bool :=
  r.staked_near = 0

/-- Modelled from the spec: `domain::RedeemStakeBatchReceipt`: the STAKE
amount still unclaimed and the exchange rate the batch was redeemed at. -/
structure RedeemStakeBatchReceipt where
  redeemed_stake : Nat
  stake_token_value : StakeTokenValue
  deriving Repr, DecidableEq

/-- Modelled from the spec: `RedeemStakeBatchReceipt::stake_tokens_redeemed`
marks `amount` of the redeemed STAKE as claimed. -/
def RedeemStakeBatchReceipt.stake_tokens_redeemed (r : RedeemStakeBatchReceipt)
    (amount : Nat) : Option RedeemStakeBatchReceipt :=
  (checkedSub r.redeemed_stake amount).map fun n => { r with redeemed_stake := n }

/-- Modelled from the spec: `RedeemStakeBatchReceipt::all_claimed`. -/
def RedeemStakeBatchReceipt.all_claimed (r : RedeemStakeBatchReceipt) : Bool :=
  r.redeemed_stake = 0

/-!
## Receipt maps

The contract stores receipts in persistent maps keyed by `BatchId`
(`stake_batch_receipts`, `redeem_stake_batch_receipts`).  They are embedded
as association lists with `get`/`insert`/`remove`.
-/

/-- Lookup in a receipt map (`UnorderedMap::get`). -/
def mapGet {α : Type} (m : List (Nat × α)) (k : Nat) : Option α :=
  match m with
  | [] => none
  | (k', v) :: rest => if k' = k then some v else mapGet rest k

/-- Delete a key from a receipt map (`UnorderedMap::remove`). -/
def mapRemove {α : Type} (m : List (Nat × α)) (k : Nat) : List (Nat × α) :=
  match m with
  | [] => []
  | (k', v) :: rest => if k' = k then mapRemove rest k else (k', v) :: mapRemove rest k

/-- Insert/replace a key in a receipt map (`UnorderedMap::insert`). -/
def mapInsert {α : Type} (m : List (Nat × α)) (k : Nat) (v : α) : List (Nat × α) :=
  (k, v) :: mapRemove m k

/-!
## Account (`src/contract/src/domain/account.rs`)

`storage_escrow` is never read or written by any claimed operation and is
omitted.  The optional timestamped balances reduce to their `u128` amounts.
-/

structure Account where
  near : Option Nat
  stake : Option Nat
  stake_batch : Option Batch
  next_stake_batch : Option Batch
  redeem_stake_batch : Option Batch
  next_redeem_stake_batch : Option Batch
  deriving Repr, DecidableEq

/-- The empty (freshly registered) account. -/
def Account.new : Account :=
  { near := none, stake := none, stake_batch := none, next_stake_batch := none
    redeem_stake_batch := none, next_redeem_stake_batch := none }

/-- `Account::can_redeem`: the STAKE balance covers `amount`. -/
def Account.can_redeem (a : Account) (amount : Nat) : Bool :=
  match a.stake with
  | none => false
  | some bal => amount ≤ bal

/-- `Account::apply_near_credit` (credit is checked, creating the balance
when absent). -/
def Account.apply_near_credit (a : Account) (credit : Nat) : Option Account :=
  (checkedAdd (a.near.getD 0) credit).map fun n => { a with near := some n }

/-- `Account::apply_stake_credit`. -/
def Account.apply_stake_credit (a : Account) (credit : Nat) : Option Account :=
  (checkedAdd (a.stake.getD 0) credit).map fun n => { a with stake := some n }

/-!
## Locks and contract aggregate state

`StakeLock`, `RedeemLock`, the `Contract` struct and its small helpers
(`stake_batch_locked`, `is_unstaking` is present in `staking_service.rs`,
`pop_redeem_stake_batch`) live in repository files not under `src/`; they
are modelled from the spec (§3 "Contract aggregate state", §4.2 "Locking
state machine", §4.5 "promote next batch into the current slot").  The
payload of `StakeLock::Staked {..}` is never read by claimed code and is
dropped.
-/

/-- Modelled from the spec: the stake-side lock enumeration. -/
inductive StakeLock where
  | Staking
  | Staked
  | RefreshingStakeTokenValue
  deriving Repr, DecidableEq

/-- Modelled from the spec: the redeem-side lock enumeration. -/
inductive RedeemLock where
  | Unstaking
  | PendingWithdrawal
  deriving Repr, DecidableEq

/-- Modelled from the spec: the contract aggregate state (the fields the
claimed operations read or write; earnings/ownership fields are untouched
by every claim and omitted). -/
structure Contract where
  stake_batch : Option Batch
  next_stake_batch : Option Batch
  redeem_stake_batch : Option Batch
  next_redeem_stake_batch : Option Batch
  stake_batch_lock : Option StakeLock
  redeem_stake_batch_lock : Option RedeemLock
  batch_id_sequence : Nat
  stake_token_value : StakeTokenValue
  /-- `total_stake.amount()`: total STAKE supply. -/
  total_stake : Nat
  /-- `total_near.amount()`: NEAR held for account balances. -/
  total_near : Nat
  near_liquidity_pool : Nat
  stake_batch_receipts : List (Nat × StakeBatchReceipt)
  redeem_stake_batch_receipts : List (Nat × RedeemStakeBatchReceipt)
  deriving Repr, DecidableEq

/-- Modelled from the spec: `Contract::stake_batch_locked` — the stake-side
lock is set (§4.1 "if stake-side is not locked ... else the `next_*`
pair"). -/
def Contract.stake_batch_locked (c : Contract) : Bool :=
  c.stake_batch_lock.isSome

/-- `Contract::is_unstaking` (`staking_service.rs` lines 1085-1090). -/
def Contract.is_unstaking (c : Contract) : Bool :=
  match c.redeem_stake_batch_lock with
  | some RedeemLock.Unstaking => true
  | _ => false

/-- `Contract::can_run_batch` (`staking_service.rs` lines 614-616). -/
def Contract.can_run_batch (c : Contract) : Bool :=
  !c.stake_batch_locked && !c.is_unstaking

/-- Modelled from the spec: `Contract::pop_redeem_stake_batch` promotes the
next redeem batch into the current slot (§4.5 "clear `RedeemLock`, promote
next batch"). -/
def Contract.pop_redeem_stake_batch (c : Contract) : Contract :=
  { c with redeem_stake_batch := c.next_redeem_stake_batch
           next_redeem_stake_batch := none }

/-!
## Panic modelling

Every contract entry point either completes or panics; a panic aborts the
whole invocation and rolls back all state.  `Err` distinguishes the panic
messages the claims care about.
-/

inductive Err where
  /-- `DEPOSIT_REQUIRED_FOR_STAKE` (zero deposit). -/
  | depositRequired
  /-- `ZERO_REDEEM_AMOUNT`. -/
  | zeroRedeemAmount
  /-- `INSUFFICIENT_STAKE_FOR_REDEEM_REQUEST`. -/
  | insufficientStakeForRedeem
  /-- `BLOCKED_BY_BATCH_RUNNING` (lock conflict). -/
  | blockedByBatchRunning
  /-- `NO_FUNDS_IN_STAKE_BATCH_TO_WITHDRAW`. -/
  | noFundsInStakeBatchToWithdraw
  /-- "minimum required NEAR deposit is ..." assertion. -/
  | minRequiredDeposit
  /-- account balance too low / absent (`apply_near_debit`, stake debit). -/
  | balanceTooLow
  /-- `expect` on an invariant the code assumes (IllegalState). -/
  | illegalState
  /-- `u128`/`U256` arithmetic abort (overflow, underflow, `as_u128`). -/
  | overflow
  deriving Repr, DecidableEq

/-- Lift an arithmetic abort into the panic monad. -/
def liftOv {α : Type} : Option α → Except Err α
  | some a => .ok a
  | none => .error .overflow

instance {ε α : Type} [DecidableEq ε] [DecidableEq α] : DecidableEq (Except ε α) := fun x y =>
  match x, y with
  | .ok a, .ok b =>
    if h : a = b then .isTrue (h ▸ rfl) else .isFalse fun he => h (Except.ok.inj he)
  | .error a, .error b =>
    if h : a = b then .isTrue (h ▸ rfl) else .isFalse fun he => h (Except.error.inj he)
  | .ok _, .error _ => .isFalse fun he => Except.noConfusion he
  | .error _, .ok _ => .isFalse fun he => Except.noConfusion he

/-- `Account::apply_near_debit`: `expect` a NEAR balance, assert it covers
the debit, debit it and drop the balance record at zero. -/
def Account.apply_near_debit (a : Account) (debit : Nat) : Except Err Account :=
  match a.near with
  | none => .error .balanceTooLow
  | some bal =>
    if debit ≤ bal then
      .ok { a with near := if bal - debit = 0 then none else some (bal - debit) }
    else
      .error .balanceTooLow

/-!
## Receipt claiming (`staking_service.rs` lines 774-1083)
-/

/-- `claim_stake_tokens_for_batch` (inner fn of `claim_stake_batch_receipts`,
lines 869-890): credit the STAKE minted for the account's batched NEAR at
the receipt's rate, mark it claimed on the receipt, and delete the receipt
once fully claimed. -/
def claim_stake_tokens_for_batch (c : Contract) (a : Account) (batch : Batch)
    (receipt : StakeBatchReceipt) : Except Err (Contract × Account) := do
  let staked_near := batch.balance
  let stake ← liftOv (receipt.stake_token_value.near_to_stake staked_near)
  let a ← liftOv (a.apply_stake_credit stake)
  let receipt ← liftOv (receipt.stake_tokens_issued staked_near)
  if receipt.all_claimed then
    .ok ({ c with stake_batch_receipts := mapRemove c.stake_batch_receipts batch.id }, a)
  else
    .ok ({ c with stake_batch_receipts := mapInsert c.stake_batch_receipts batch.id receipt }, a)

/-- `claim_stake_batch_receipts` (lines 868-920): claim the account's
current and next stake batches against existing receipts, then promote the
next batch into the current slot when the stake side is unlocked. -/
def claim_stake_batch_receipts (c : Contract) (a : Account) :
    Except Err (Contract × Account × Bool) := do
  let (c, a, claimed₁) ←
    match a.stake_batch with
    | some batch =>
      match mapGet c.stake_batch_receipts batch.id with
      | some receipt => do
        let (c, a) ← claim_stake_tokens_for_batch c a batch receipt
        .ok (c, { a with stake_batch := none }, true)
      | none => .ok (c, a, false)
    | none => .ok (c, a, false)
  let (c, a, claimed₂) ←
    match a.next_stake_batch with
    | some batch =>
      match mapGet c.stake_batch_receipts batch.id with
      | some receipt => do
        let (c, a) ← claim_stake_tokens_for_batch c a batch receipt
        .ok (c, { a with next_stake_batch := none }, true)
      | none => .ok (c, a, false)
    | none => .ok (c, a, false)
  let a :=
    if !c.stake_batch_locked && a.stake_batch.isNone then
      { a with stake_batch := a.next_stake_batch, next_stake_batch := none }
    else a
  .ok (c, a, claimed₁ || claimed₂)

/-- `claim_redeemed_stake_for_batch` (inner fn of
`claim_redeem_stake_batch_receipts`, lines 924-949): credit the NEAR for
the account's redeemed STAKE at the receipt's rate and shrink/delete the
receipt. -/
def claim_redeemed_stake_for_batch (c : Contract) (a : Account)
    (account_batch : Batch) (receipt : RedeemStakeBatchReceipt) :
    Except Err (Contract × Account) := do
  let redeemed_stake := account_batch.balance
  let near ← liftOv (receipt.stake_token_value.stake_to_near redeemed_stake)
  let a ← liftOv (a.apply_near_credit near)
  let receipt ← liftOv (receipt.stake_tokens_redeemed redeemed_stake)
  if receipt.all_claimed then
    .ok ({ c with redeem_stake_batch_receipts :=
             mapRemove c.redeem_stake_batch_receipts account_batch.id }, a)
  else
    .ok ({ c with redeem_stake_batch_receipts :=
             mapInsert c.redeem_stake_batch_receipts account_batch.id receipt }, a)

/-- `claim_redeemed_stake_for_batch_pending_withdrawal` (lines 952-992):
partial claim against the NEAR liquidity pool while the batch is pending
withdrawal; on full exhaustion of the receipt the pending-withdrawal cycle
is finalized early.  Returns the updated account batch alongside. -/
def claim_redeemed_stake_for_batch_pending_withdrawal (c : Contract) (a : Account)
    (account_batch : Batch) (receipt : RedeemStakeBatchReceipt) :
    Except Err (Contract × Account × Batch) := do
  let redeemed_stake := account_batch.balance
  let redeemed_stake_near_value ←
    liftOv (receipt.stake_token_value.stake_to_near redeemed_stake)
  let claimed_near :=
    if redeemed_stake_near_value ≤ c.near_liquidity_pool then
      redeemed_stake_near_value
    else
      c.near_liquidity_pool
  let redeemable_stake ← liftOv (receipt.stake_token_value.near_to_stake claimed_near)
  let account_batch ← liftOv (account_batch.remove redeemable_stake)
  let a ← liftOv (a.apply_near_credit claimed_near)
  let pool ← liftOv (checkedSub c.near_liquidity_pool claimed_near)
  let total_near ← liftOv (checkedAdd c.total_near claimed_near)
  let c := { c with near_liquidity_pool := pool, total_near := total_near }
  let receipt ← liftOv (receipt.stake_tokens_redeemed redeemable_stake)
  if receipt.all_claimed then
    let c := { c with
      redeem_stake_batch_receipts :=
        mapRemove c.redeem_stake_batch_receipts account_batch.id
      redeem_stake_batch_lock := none }
    .ok (c.pop_redeem_stake_batch, a, account_batch)
  else
    .ok ({ c with redeem_stake_batch_receipts :=
             mapInsert c.redeem_stake_batch_receipts account_batch.id receipt },
         a, account_batch)

/-- One pass of `claim_redeem_stake_batch_receipts` over the account's
*current* redeem batch slot while `RedeemLock::PendingWithdrawal` (lines
1006-1026): an ordinary claim for a batch other than the pending one, a
liquidity-pool claim for the pending batch while the pool is non-empty. -/
def claim_redeem_pending_current (c : Contract) (a : Account)
    (pending_batch_id : Nat) : Except Err (Contract × Account × Bool) :=
  match a.redeem_stake_batch with
  | some batch =>
    if batch.id ≠ pending_batch_id then
      match mapGet c.redeem_stake_batch_receipts batch.id with
      | some receipt => do
        let (c, a) ← claim_redeemed_stake_for_batch c a batch receipt
        .ok (c, { a with redeem_stake_batch := none }, true)
      | none => .ok (c, a, false)
    else if 0 < c.near_liquidity_pool then
      match mapGet c.redeem_stake_batch_receipts batch.id with
      | some receipt => do
        let (c, a, batch) ←
          claim_redeemed_stake_for_batch_pending_withdrawal c a batch receipt
        let a :=
          if batch.balance = 0 then { a with redeem_stake_batch := none }
          else { a with redeem_stake_batch := some batch }
        .ok (c, a, true)
      | none => .ok (c, a, false)
    else .ok (c, a, false)
  | none => .ok (c, a, false)

/-- The same pass over the account's *next* redeem batch slot while
`RedeemLock::PendingWithdrawal` (lines 1028-1048). -/
def claim_redeem_pending_next (c : Contract) (a : Account)
    (pending_batch_id : Nat) : Except Err (Contract × Account × Bool) :=
  match a.next_redeem_stake_batch with
  | some batch =>
    if batch.id ≠ pending_batch_id then
      match mapGet c.redeem_stake_batch_receipts batch.id with
      | some receipt => do
        let (c, a) ← claim_redeemed_stake_for_batch c a batch receipt
        .ok (c, { a with next_redeem_stake_batch := none }, true)
      | none => .ok (c, a, false)
    else if 0 < c.near_liquidity_pool then
      match mapGet c.redeem_stake_batch_receipts batch.id with
      | some receipt => do
        let (c, a, batch) ←
          claim_redeemed_stake_for_batch_pending_withdrawal c a batch receipt
        let a :=
          if batch.balance = 0 then { a with next_redeem_stake_batch := none }
          else { a with next_redeem_stake_batch := some batch }
        .ok (c, a, true)
      | none => .ok (c, a, false)
    else .ok (c, a, false)
  | none => .ok (c, a, false)

/-- The pass over the account's current redeem batch slot with no redeem
lock (lines 1050-1057). -/
def claim_redeem_unlocked_current (c : Contract) (a : Account) :
    Except Err (Contract × Account × Bool) :=
  match a.redeem_stake_batch with
  | some batch =>
    match mapGet c.redeem_stake_batch_receipts batch.id with
    | some receipt => do
      let (c, a) ← claim_redeemed_stake_for_batch c a batch receipt
      .ok (c, { a with redeem_stake_batch := none }, true)
    | none => .ok (c, a, false)
  | none => .ok (c, a, false)

/-- The pass over the account's next redeem batch slot with no redeem lock
(lines 1059-1065). -/
def claim_redeem_unlocked_next (c : Contract) (a : Account) :
    Except Err (Contract × Account × Bool) :=
  match a.next_redeem_stake_batch with
  | some batch =>
    match mapGet c.redeem_stake_batch_receipts batch.id with
    | some receipt => do
      let (c, a) ← claim_redeemed_stake_for_batch c a batch receipt
      .ok (c, { a with next_redeem_stake_batch := none }, true)
    | none => .ok (c, a, false)
  | none => .ok (c, a, false)

/-- `claim_redeem_stake_batch_receipts` (lines 923-1083): claim NEAR for the
account's redeemed STAKE.  While `RedeemLock::PendingWithdrawal`, the batch
matching the pending id can only be claimed against the liquidity pool;
while `Unstaking` nothing is claimed; afterwards the next batch is promoted
when the redeem side is unlocked. -/
def claim_redeem_stake_batch_receipts (c : Contract) (a : Account) :
    Except Err (Contract × Account × Bool) := do
  let (c, a, claimed) ←
    match c.redeem_stake_batch_lock with
    | some RedeemLock.PendingWithdrawal => do
      let pending_batch ←
        match c.redeem_stake_batch with
        | some b => Except.ok b
        | none => Except.error Err.illegalState
      let (c, a, claimed₁) ← claim_redeem_pending_current c a pending_batch.id
      let (c, a, claimed₂) ← claim_redeem_pending_next c a pending_batch.id
      Except.ok (c, a, claimed₁ || claimed₂)
    | none => do
      let (c, a, claimed₁) ← claim_redeem_unlocked_current c a
      let (c, a, claimed₂) ← claim_redeem_unlocked_next c a
      Except.ok (c, a, claimed₁ || claimed₂)
    | some RedeemLock.Unstaking =>
      -- early `return false`: no claiming (and the promotion below cannot
      -- fire, the lock being set)
      Except.ok (c, a, false)
  let a :=
    if c.redeem_stake_batch_lock.isNone && a.redeem_stake_batch.isNone then
      { a with redeem_stake_batch := a.next_redeem_stake_batch
               next_redeem_stake_batch := none }
    else a
  .ok (c, a, claimed)

/-- `claim_receipt_funds` (lines 774-781): settle the stake side then the
redeem side (account persistence is implicit in the explicit state
threading). -/
def claim_receipt_funds (c : Contract) (a : Account) :
    Except Err (Contract × Account × Bool) := do
  let (c, a, claimed_stake_tokens) ← claim_stake_batch_receipts c a
  let (c, a, claimed_near_tokens) ← claim_redeem_stake_batch_receipts c a
  .ok (c, a, claimed_stake_tokens || claimed_near_tokens)

/-!
## Rate update (`update_stake_token_value`, lines 1094-1152)
-/

/-- `update_stake_token_value`: record a fresh `StakeTokenValue` from the
staking pool's reported total staked balance.  If the implied per-share
value would drop while the reported balance is nonzero, a NEAR
compensation amount (computed in `U256`) is added to the liquidity pool
and to the recorded total.  `bth` is the `BlockTimeHeight::from_env()`
snapshot. -/
def update_stake_token_value (c : Contract) (bth total_staked_near_balance : Nat) :
    Except Err Contract := do
  let new_stake_token_value :=
    StakeTokenValue.new bth total_staked_near_balance c.total_stake
  let new_stake_near_value ← liftOv (new_stake_token_value.stake_to_near YOCTO)
  let current_stake_near_value ← liftOv (c.stake_token_value.stake_to_near YOCTO)
  if current_stake_near_value ≤ new_stake_near_value ∨ total_staked_near_balance = 0 then
    .ok { c with stake_token_value := new_stake_token_value }
  else do
    -- U256: current_stake_near_value * total_stake_supply / YOCTO
    --         - total_staked_near_balance   (panics on underflow)
    let scaled := current_stake_near_value * c.total_stake / YOCTO
    let staked_near_compensation ← liftOv (do
      let comp ← if total_staked_near_balance ≤ scaled then
                   some (scaled - total_staked_near_balance)
                 else none
      as_u128 comp)
    let pool ← liftOv (checkedAdd c.near_liquidity_pool staked_near_compensation)
    let accepted ← liftOv (as_u128 (total_staked_near_balance + staked_near_compensation))
    .ok { c with
      near_liquidity_pool := pool
      stake_token_value :=
        StakeTokenValue.new new_stake_token_value.block_time_height accepted
          c.total_stake }

/-!
## Deposits and redemptions (lines 589-771)
-/

/-- `Contract::min_required_near_deposit` (lines 604-606): the NEAR value of
1000 yoctoSTAKE at the cached rate. -/
def Contract.min_required_near_deposit (c : Contract) : Except Err Nat :=
  liftOv (c.stake_token_value.stake_to_near 1000)

/-- `check_stake_batch_min_required_near_balance` (lines 595-602). -/
def check_stake_batch_min_required_near_balance (c : Contract) (batch : Batch) :
    Except Err Unit := do
  let m ← c.min_required_near_deposit
  if m ≤ batch.balance then .ok () else .error .minRequiredDeposit

/-- `Contract::new_stake_batch`/`new_redeem_stake_batch` (lines 691-694,
768-771): bump the shared id sequence and open an empty batch under the new
id.  (The `u128` counter starts at 0 and is bumped once per batch; its
overflow is unreachable and not modelled.) -/
def Contract.new_batch (c : Contract) : Contract × Batch :=
  ({ c with batch_id_sequence := c.batch_id_sequence + 1 },
   { id := c.batch_id_sequence + 1, balance := 0 })

/-- `deposit_near_for_account_to_stake` (lines 646-689): batch the NEAR at
contract and account level, in the current pair when the stake side is
unlocked, else in the next pair.  Returns the batch id. -/
def deposit_near_for_account_to_stake (c : Contract) (a : Account) (amount : Nat) :
    Except Err (Contract × Account × Nat) := do
  if amount = 0 then .error .depositRequired else
  let (c, a, _) ← claim_receipt_funds c a
  if !c.stake_batch_locked then
    let (c, contract_batch) :=
      match c.stake_batch with
      | some b => (c, b)
      | none => c.new_batch
    let contract_batch ← liftOv (contract_batch.add amount)
    let c := { c with stake_batch := some contract_batch }
    let account_batch := a.stake_batch.getD { id := contract_batch.id, balance := 0 }
    let account_batch ← liftOv (account_batch.add amount)
    let a := { a with stake_batch := some account_batch }
    .ok (c, a, account_batch.id)
  else
    let (c, contract_batch) :=
      match c.next_stake_batch with
      | some b => (c, b)
      | none => c.new_batch
    let contract_batch ← liftOv (contract_batch.add amount)
    let c := { c with next_stake_batch := some contract_batch }
    let account_batch := a.next_stake_batch.getD { id := contract_batch.id, balance := 0 }
    let account_batch ← liftOv (account_batch.add amount)
    let a := { a with next_stake_batch := some account_batch }
    .ok (c, a, account_batch.id)

/-- `redeem_stake_for_account` (lines 704-766): debit the STAKE being
redeemed from the account balance and batch it, in the current pair when
the redeem side is unlocked, else in the next pair. -/
def redeem_stake_for_account (c : Contract) (a : Account) (amount : Nat) :
    Except Err (Contract × Account × Nat) := do
  if amount = 0 then .error .zeroRedeemAmount else
  let (c, a, _) ← claim_receipt_funds c a
  if !a.can_redeem amount then .error .insufficientStakeForRedeem else
  let stake ←
    match a.stake with
    | some s => Except.ok s
    | none => Except.error Err.balanceTooLow
  let remaining ← liftOv (checkedSub stake amount)
  let a := { a with stake := if 0 < remaining then some remaining else none }
  match c.redeem_stake_batch_lock with
  | none =>
    let (c, contract_batch) :=
      match c.redeem_stake_batch with
      | some b => (c, b)
      | none => c.new_batch
    let contract_batch ← liftOv (contract_batch.add amount)
    let c := { c with redeem_stake_batch := some contract_batch }
    let account_batch := a.redeem_stake_batch.getD { id := contract_batch.id, balance := 0 }
    let account_batch ← liftOv (account_batch.add amount)
    let a := { a with redeem_stake_batch := some account_batch }
    .ok (c, a, account_batch.id)
  | some _ =>
    let (c, contract_batch) :=
      match c.next_redeem_stake_batch with
      | some b => (c, b)
      | none => c.new_batch
    let contract_batch ← liftOv (contract_batch.add amount)
    let c := { c with next_redeem_stake_batch := some contract_batch }
    let account_batch :=
      a.next_redeem_stake_batch.getD { id := contract_batch.id, balance := 0 }
    let account_batch ← liftOv (account_batch.add amount)
    let a := { a with next_redeem_stake_batch := some account_batch }
    .ok (c, a, account_batch.id)

/-!
## Stake batch withdrawal (`withdraw_from_stake_batch`, lines 98-161)
-/

/-- `withdraw_from_stake_batch`: withdraw `amount` of uncommitted deposit.
The account's next batch is tried first; the current batch requires
`can_run_batch` (no stake lock and no in-flight unstake).  When a partial
withdrawal leaves the *next* batch non-empty its remaining balance must
still satisfy the minimum required deposit. -/
def withdraw_from_stake_batch (c : Contract) (a : Account) (amount : Nat) :
    Except Err (Contract × Account) := do
  let (c, a, _) ← claim_receipt_funds c a
  match a.next_stake_batch with
  | some batch => do
    let contract_batch ←
      match c.next_stake_batch with
      | some b => Except.ok b
      | none => Except.error Err.illegalState
    let contract_batch ← liftOv (contract_batch.remove amount)
    let c := { c with next_stake_batch :=
                 if contract_batch.balance = 0 then none else some contract_batch }
    let batch ← liftOv (batch.remove amount)
    if batch.balance = 0 then
      .ok (c, { a with next_stake_batch := none })
    else do
      check_stake_batch_min_required_near_balance c batch
      .ok (c, { a with next_stake_batch := some batch })
  | none =>
    match a.stake_batch with
    | some batch => do
      if !c.can_run_batch then .error .blockedByBatchRunning else
      let contract_batch ←
        match c.stake_batch with
        | some b => Except.ok b
        | none => Except.error Err.illegalState
      let contract_batch ← liftOv (contract_batch.remove amount)
      let c := { c with stake_batch :=
                   if contract_batch.balance = 0 then none else some contract_batch }
      let batch ← liftOv (batch.remove amount)
      if batch.balance = 0 then
        .ok (c, { a with stake_batch := none })
      else
        .ok (c, { a with stake_batch := some batch })
    | none => .error .noFundsInStakeBatchToWithdraw

/-!
## NEAR withdrawals and transfers (lines 513-551)
-/

/-- `withdraw_near_funds`: settle receipts, debit the account's NEAR
balance, and draw any shortfall of `total_near` from the liquidity pool
before debiting `total_near` by the full amount. -/
def withdraw_near_funds (c : Contract) (a : Account) (amount : Nat) :
    Except Err (Contract × Account) := do
  let (c, a, _) ← claim_receipt_funds c a
  let a ← a.apply_near_debit amount
  let c ←
    if c.total_near < amount then do
      let difference := amount - c.total_near
      let pool ← liftOv (checkedSub c.near_liquidity_pool difference)
      let total_near ← liftOv (checkedAdd c.total_near difference)
      Except.ok { c with near_liquidity_pool := pool, total_near := total_near }
    else Except.ok c
  let total_near ← liftOv (checkedSub c.total_near amount)
  .ok ({ c with total_near := total_near }, a)

/-- `transfer_near_funds`: identical ledger mutation to
`withdraw_near_funds`; only the beneficiary of the outgoing NEAR `Promise`
differs, which the ledger model does not track. -/
def transfer_near_funds (c : Contract) (a : Account) (amount : Nat) :
    Except Err (Contract × Account) := do
  let (c, a, _) ← claim_receipt_funds c a
  let a ← a.apply_near_debit amount
  let c ←
    if c.total_near < amount then do
      let difference := amount - c.total_near
      let pool ← liftOv (checkedSub c.near_liquidity_pool difference)
      let total_near ← liftOv (checkedAdd c.total_near difference)
      Except.ok { c with near_liquidity_pool := pool, total_near := total_near }
    else Except.ok c
  let total_near ← liftOv (checkedSub c.total_near amount)
  .ok ({ c with total_near := total_near }, a)

/-- The contract state at genesis: everything empty, default
`StakeTokenValue` (both ratio operands zero, so conversions are 1:1). -/
def emptyContract : Contract :=
  { stake_batch := none, next_stake_batch := none
    redeem_stake_batch := none, next_redeem_stake_batch := none
    stake_batch_lock := none, redeem_stake_batch_lock := none
    batch_id_sequence := 0
    stake_token_value := ⟨0, 0, 0⟩
    total_stake := 0, total_near := 0, near_liquidity_pool := 0
    stake_batch_receipts := [], redeem_stake_batch_receipts := [] }

/-!
## Derived helpers and concrete states used by the claim theorems
-/

/-- Scenario C state: pending-withdrawal receipt over `2·10²⁴` shares at a
1:1 rate, liquidity pool of `10²⁴` yoctoNEAR, the account holding all
`2·10²⁴` pending shares. -/
def c3Contract : Contract :=
  { emptyContract with
      redeem_stake_batch_lock := some .PendingWithdrawal
      redeem_stake_batch := some ⟨1, 2 * YOCTO⟩
      redeem_stake_batch_receipts := [(1, ⟨2 * YOCTO, ⟨0, YOCTO, YOCTO⟩⟩)]
      near_liquidity_pool := YOCTO }

def c3Account : Account :=
  { Account.new with redeem_stake_batch := some ⟨1, 2 * YOCTO⟩ }

/-- Pending-withdrawal state: receipt rate 3 yoctoNEAR staked / 2
yoctoSTAKE supply, pool of 5 yoctoNEAR, account pending 1 yoctoSTAKE in the
pending batch. -/
def c4Contract : Contract :=
  { emptyContract with
      redeem_stake_batch_lock := some .PendingWithdrawal
      redeem_stake_batch := some ⟨1, 1⟩
      redeem_stake_batch_receipts := [(1, ⟨2, ⟨0, 3, 2⟩⟩)]
      near_liquidity_pool := 5 }

def c4Account : Account :=
  { Account.new with redeem_stake_batch := some ⟨1, 1⟩ }

/-- The state after one `claim_receipt_funds`: 1 yoctoNEAR moved from the
pool to the account, zero shares removed from the batch. -/
def c4Contract₁ : Contract :=
  { c4Contract with near_liquidity_pool := 4, total_near := 1 }

def c4Account₁ : Account :=
  { c4Account with near := some 1 }

/-- Balance of an optional batch slot (0 when empty). -/
def batchBalance : Option Batch → Nat
  | some b => b.balance
  | none => 0

/-- State with the stake side locked (`Staking`) and 2000 yoctoNEAR
deposited into next batch 2 by the account. -/
def c6Contract : Contract :=
  { emptyContract with
      stake_batch_lock := some .Staking
      next_stake_batch := some ⟨2, 2000⟩ }

def c6Account : Account :=
  { Account.new with next_stake_batch := some ⟨2, 2000⟩ }

/-- Contract holding a recorded `StakeTokenValue` of 5 yoctoNEAR staked
against 3 yoctoSTAKE supply (a value `StakeTokenValue::new` itself
produces). -/
def c1Contract : Contract :=
  { emptyContract with stake_token_value := ⟨0, 5, 3⟩, total_stake := 3 }

/-!
## Spot checks of the conversion embedding
-/

example : StakeTokenValue.stake_to_near ⟨0, 0, 0⟩ YOCTO = some YOCTO := by decide
example : StakeTokenValue.near_to_stake ⟨0, 3, 2⟩ 1 = some 0 := by decide
example : StakeTokenValue.stake_to_near ⟨0, 3, 2⟩ 1 = some 1 := by decide
example : StakeTokenValue.new 0 5 3 = ⟨0, 5, 3⟩ := by decide
example : StakeTokenValue.new 0 2 3 = ⟨0, 3, 3⟩ := by decide


/-!
## Claim C1 — rate non-regression of `update_stake_token_value`

The code's own comment (lines 1104-1105) states the invariant: "the new
STAKE token value should never be less than the current STAKE token value,
unless the total staked NEAR balance is zero".  The compensation arithmetic
rounds `current_rate * supply / YOCTO` down to whole yoctoNEAR, so for a
small total supply the accepted balance undershoots and the recorded
per-share value drops.
-/

/-- C1: with the recorded value at balance 5 / supply 3 and a freshly
reported nonzero balance of 4, `update_stake_token_value` computes a
compensation of zero, records balance 4 unchanged, and the per-share NEAR
value regresses from `⌊5·10²⁴/3⌋` to `⌊4·10²⁴/3⌋` — contradicting the
claimed (and code-commented) rate non-regression. -/
theorem c1_update_stake_token_value_rate_regression :
    update_stake_token_value c1Contract 0 4 =
      .ok { c1Contract with stake_token_value := ⟨0, 4, 3⟩ } ∧
    c1Contract.stake_token_value.stake_to_near YOCTO =
      some 1666666666666666666666666 ∧
    StakeTokenValue.stake_to_near ⟨0, 4, 3⟩ YOCTO =
      some 1333333333333333333333333 ∧
    (1333333333333333333333333 : Nat) < 1666666666666666666666666 := by
  refine ⟨by decide, by decide, by decide, by decide⟩

/-!
## Claim C2 — exactness of the rate conversions

The `U256` intermediate makes the multiplication and division exact, but
the final `as_u128` narrowing panics when the mathematical quotient does
not fit in 128 bits, so the conversion does not always *equal* the floor
— it can abort instead.
-/

/-- C2 counterexample: at balance 2 / supply 1 (a constructible value) and
the maximal `u128` amount, the exact quotient `(2¹²⁸−1)·2` exceeds `u128`,
so `stake_to_near` panics (`none`) instead of returning the floor the claim
promises. -/
theorem c2_stake_to_near_narrowing_aborts :
    StakeTokenValue.stake_to_near ⟨0, 2, 1⟩ (2 ^ 128 - 1) = none ∧
    (2 ^ 128 - 1) * 2 / 1 = 2 ^ 129 - 2 ∧
    ¬ (2 ^ 129 - 2 < U128_BOUND) := by
  refine ⟨by decide, by decide, by decide⟩

/-- C2 (amended): with both ratio operands nonzero, each conversion returns
exactly the floor of the exact rational product — characterised by the
division algorithm — whenever that floor fits in `u128`, and aborts
otherwise; with either operand zero both conversions are the identity. -/
theorem c2_conversions_exact_floor (bth bal supply amount : Nat) :
    (bal ≠ 0 → supply ≠ 0 →
      (amount * supply / bal < U128_BOUND →
        ∃ q, StakeTokenValue.near_to_stake ⟨bth, bal, supply⟩ amount = some q ∧
          q * bal ≤ amount * supply ∧ amount * supply < (q + 1) * bal) ∧
      (U128_BOUND ≤ amount * supply / bal →
        StakeTokenValue.near_to_stake ⟨bth, bal, supply⟩ amount = none) ∧
      (amount * bal / supply < U128_BOUND →
        ∃ q, StakeTokenValue.stake_to_near ⟨bth, bal, supply⟩ amount = some q ∧
          q * supply ≤ amount * bal ∧ amount * bal < (q + 1) * supply) ∧
      (U128_BOUND ≤ amount * bal / supply →
        StakeTokenValue.stake_to_near ⟨bth, bal, supply⟩ amount = none)) ∧
    (bal = 0 ∨ supply = 0 →
      StakeTokenValue.near_to_stake ⟨bth, bal, supply⟩ amount = some amount ∧
      StakeTokenValue.stake_to_near ⟨bth, bal, supply⟩ amount = some amount) := by
  constructor
  · intro hb hs
    have hbpos : 0 < bal := Nat.pos_of_ne_zero hb
    have hspos : 0 < supply := Nat.pos_of_ne_zero hs
    have hnz : ¬ (bal = 0 ∨ supply = 0) := by
      rintro (h | h) <;> simp_all
    refine ⟨?_, ?_, ?_, ?_⟩
    · intro hfit
      refine ⟨amount * supply / bal, ?_, Nat.div_mul_le_self _ _, ?_⟩
      · simp [StakeTokenValue.near_to_stake, as_u128, hb, hs, hfit]
      · calc amount * supply
            = bal * (amount * supply / bal) + amount * supply % bal :=
              (Nat.div_add_mod _ _).symm
          _ < bal * (amount * supply / bal) + bal :=
              Nat.add_lt_add_left (Nat.mod_lt _ hbpos) _
          _ = (amount * supply / bal + 1) * bal := by ring
    · intro hbig
      simp [StakeTokenValue.near_to_stake, as_u128, hb, hs, Nat.not_lt.mpr hbig]
    · intro hfit
      refine ⟨amount * bal / supply, ?_, Nat.div_mul_le_self _ _, ?_⟩
      · simp [StakeTokenValue.stake_to_near, as_u128, hb, hs, hfit]
      · calc amount * bal
            = supply * (amount * bal / supply) + amount * bal % supply :=
              (Nat.div_add_mod _ _).symm
          _ < supply * (amount * bal / supply) + supply :=
              Nat.add_lt_add_left (Nat.mod_lt _ hspos) _
          _ = (amount * bal / supply + 1) * supply := by ring
    · intro hbig
      simp [StakeTokenValue.stake_to_near, as_u128, hb, hs, Nat.not_lt.mpr hbig]
  · intro h
    constructor <;> simp [StakeTokenValue.near_to_stake, StakeTokenValue.stake_to_near, h]

/-- C2 witness: the amended theorem applied at balance 3, supply 2,
amount 7, and at a zero-supply value. -/
theorem c2_conversions_exact_floor_witness :
    (∃ q, StakeTokenValue.near_to_stake ⟨0, 3, 2⟩ 7 = some q ∧
      q * 3 ≤ 7 * 2 ∧ 7 * 2 < (q + 1) * 3) ∧
    StakeTokenValue.stake_to_near ⟨0, 3, 0⟩ 7 = some 7 :=
  ⟨(((c2_conversions_exact_floor 0 3 2 7).1 (by decide) (by decide)).1 (by decide)),
   ((c2_conversions_exact_floor 0 3 0 7).2 (Or.inr rfl)).2⟩

/-!
## Reduction helpers for the panic monad and receipt maps
-/

@[simp] theorem liftOv_some {α : Type} (a : α) : liftOv (some a) = .ok a := rfl

@[simp] theorem liftOv_none {α : Type} : liftOv (none : Option α) = .error .overflow := rfl

@[simp] theorem ok_bind {α β : Type} (a : α) (f : α → Except Err β) :
    (Except.ok a : Except Err α) >>= f = f a := rfl

@[simp] theorem error_bind {α β : Type} (e : Err) (f : α → Except Err β) :
    (Except.error e : Except Err α) >>= f = Except.error e := rfl

@[simp] theorem mapGet_mapRemove_self {α : Type} (m : List (Nat × α)) (k : Nat) :
    mapGet (mapRemove m k) k = none := by
  induction m with
  | nil => rfl
  | cons p rest ih =>
    obtain ⟨k', v⟩ := p
    by_cases h : k' = k <;> simp [mapRemove, mapGet, h, ih]

/-!
## Claim C3 — partial claims against the liquidity pool

Concrete scenario C plus the general early-finalization rule of
`claim_redeemed_stake_for_batch_pending_withdrawal`.
-/

/-- C3: in scenario C, claiming credits the account exactly `10²⁴`
yoctoNEAR, drains the pool to zero, credits `total_near` by the claimed
amount, and leaves `10²⁴` yoctoSTAKE unclaimed on the receipt; and in
general, whenever the pool covers the account's whole remaining pending
position and the conversions exhaust both the batch and the receipt, the
receipt is deleted, the `RedeemLock` is cleared and the next redeem batch
is promoted into the current slot. -/
theorem c3_pending_withdrawal_liquidity_claim :
    (claim_receipt_funds c3Contract c3Account =
      .ok ({ c3Contract with
              near_liquidity_pool := 0
              total_near := YOCTO
              redeem_stake_batch_receipts := [(1, ⟨YOCTO, ⟨0, YOCTO, YOCTO⟩⟩)] },
           { c3Account with near := some YOCTO, redeem_stake_batch := some ⟨1, YOCTO⟩ },
           true)) ∧
    (∀ (c : Contract) (a : Account) (b : Batch) (r : RedeemStakeBatchReceipt) (v : Nat),
      r.stake_token_value.stake_to_near b.balance = some v →
      v ≤ c.near_liquidity_pool →
      r.stake_token_value.near_to_stake v = some b.balance →
      r.redeemed_stake = b.balance →
      a.near.getD 0 + v < U128_BOUND →
      c.total_near + v < U128_BOUND →
      ∃ c₂ a₂,
        claim_redeemed_stake_for_batch_pending_withdrawal c a b r =
          .ok (c₂, a₂, { b with balance := 0 }) ∧
        mapGet c₂.redeem_stake_batch_receipts b.id = none ∧
        c₂.redeem_stake_batch_lock = none ∧
        c₂.redeem_stake_batch = c.next_redeem_stake_batch ∧
        c₂.next_redeem_stake_batch = none ∧
        a₂.near = some (a.near.getD 0 + v) ∧
        c₂.near_liquidity_pool = c.near_liquidity_pool - v ∧
        c₂.total_near = c.total_near + v) := by
  constructor
  · decide
  · intro c a b r v hval hpool hback hlast hcredit htotal
    refine ⟨{ c with
        near_liquidity_pool := c.near_liquidity_pool - v
        total_near := c.total_near + v
        redeem_stake_batch_receipts := mapRemove c.redeem_stake_batch_receipts b.id
        redeem_stake_batch_lock := none
        redeem_stake_batch := c.next_redeem_stake_batch
        next_redeem_stake_batch := none },
      { a with near := some (a.near.getD 0 + v) },
      ?_, by simp, rfl, rfl, rfl, rfl, rfl, rfl⟩
    unfold claim_redeemed_stake_for_batch_pending_withdrawal
    simp only [hval, liftOv_some, ok_bind, if_pos hpool, hback]
    simp only [Batch.remove, checkedSub, Nat.le_refl, if_pos, Nat.sub_self,
      Option.map_some', liftOv_some, ok_bind]
    simp only [Account.apply_near_credit, checkedAdd, if_pos hcredit,
      Option.map_some', liftOv_some, ok_bind, if_pos hpool]
    simp only [checkedSub, if_pos hpool, liftOv_some, ok_bind,
      checkedAdd, if_pos htotal]
    simp only [RedeemStakeBatchReceipt.stake_tokens_redeemed, hlast, checkedSub,
      Nat.le_refl, if_pos, Nat.sub_self, Option.map_some', liftOv_some, ok_bind]
    simp [RedeemStakeBatchReceipt.all_claimed, Contract.pop_redeem_stake_batch]

/-- C3 witness: the general finalization rule applied at a one-yocto
pending position fully covered by a pool of 2, with a queued next redeem
batch that gets promoted. -/
theorem c3_pending_withdrawal_liquidity_claim_witness :
    ∃ c₂ a₂,
      claim_redeemed_stake_for_batch_pending_withdrawal
        { emptyContract with
            redeem_stake_batch_lock := some .PendingWithdrawal
            redeem_stake_batch := some ⟨1, 1⟩
            next_redeem_stake_batch := some ⟨9, 7⟩
            near_liquidity_pool := 2 }
        Account.new ⟨1, 1⟩ ⟨1, ⟨0, 1, 1⟩⟩ =
        .ok (c₂, a₂, { id := 1, balance := 0 }) ∧
      mapGet c₂.redeem_stake_batch_receipts 1 = none ∧
      c₂.redeem_stake_batch_lock = none ∧
      c₂.redeem_stake_batch = some ⟨9, 7⟩ ∧
      c₂.next_redeem_stake_batch = none ∧
      a₂.near = some 1 ∧
      c₂.near_liquidity_pool = 1 ∧
      c₂.total_near = 1 := by
  have h := c3_pending_withdrawal_liquidity_claim.2
    { emptyContract with
        redeem_stake_batch_lock := some .PendingWithdrawal
        redeem_stake_batch := some ⟨1, 1⟩
        next_redeem_stake_batch := some ⟨9, 7⟩
        near_liquidity_pool := 2 }
    Account.new ⟨1, 1⟩ ⟨1, ⟨0, 1, 1⟩⟩ 1
    (by decide) (by decide) (by decide) (by decide) (by decide) (by decide)
  obtain ⟨c₂, a₂, h1, h2, h3, h4, h5, h6, h7, h8⟩ := h
  exact ⟨c₂, a₂, h1, h2, h3, h4, h5, h6, h7, h8⟩

/-!
## Claim C4 — idempotence of claiming

While `RedeemLock::PendingWithdrawal`, the partial claim against the
liquidity pool credits `claimed_near = min(pool, stake_to_near(shares))`
NEAR but removes only `near_to_stake(claimed_near)` shares from the
account's batch.  When the conversion rounds down to fewer shares than the
NEAR credited is worth, a second identical call finds the batch still
non-empty and the pool still positive and credits the account again —
claiming is not idempotent, and each call moves NEAR out of the pool
without retiring the matching shares.
-/

/-- C4: invoking `claim_receipt_funds` twice in a row from the
pending-withdrawal state, with no other operation in between, credits the
account a second time and drains the pool further — the state after the
second call differs from the state after the first, refuting claim
idempotence.  The second call repeats the first's rounding: 1 more
yoctoNEAR is credited while the account's batched shares stay at 1. -/
theorem c4_claim_receipt_funds_not_idempotent :
    claim_receipt_funds c4Contract c4Account =
      .ok (c4Contract₁, c4Account₁, true) ∧
    claim_receipt_funds c4Contract₁ c4Account₁ =
      .ok ({ c4Contract with near_liquidity_pool := 3, total_near := 2 },
           { c4Account with near := some 2 }, true) ∧
    ({ c4Contract with near_liquidity_pool := 3, total_near := 2 },
       { c4Account with near := some 2 }) ≠ (c4Contract₁, c4Account₁) := by
  refine ⟨by decide, by decide, by decide⟩

/-!
## Claim C5 — deposit batching
-/

@[simp] theorem batchBalance_some (b : Batch) : batchBalance (some b) = b.balance := rfl

@[simp] theorem batchBalance_none : batchBalance none = 0 := rfl

/-- C5: a zero deposit is rejected with no state change; a positive deposit
is applied to the post-settlement state (receipts are claimed first): when
the stake side is unlocked the amount lands in the current
contract/account `stake_batch` pair and otherwise in the `next` pair, the
pair is created under a fresh id drawn from the shared sequence exactly
when the contract-level slot was empty, and the account-level batch id
always equals the contract-level id. -/
theorem c5_deposit_batching (c : Contract) (a : Account) (m : Nat)
    (c' : Contract) (a' : Account) (bcl : Bool)
    (hclaim : claim_receipt_funds c a = .ok (c', a', bcl)) :
    deposit_near_for_account_to_stake c a 0 = .error .depositRequired ∧
    (0 < m →
      (c'.stake_batch_lock = none →
        (∀ ab, a'.stake_batch = some ab →
          ∃ cb, c'.stake_batch = some cb ∧ cb.id = ab.id) →
        batchBalance c'.stake_batch + m < U128_BOUND →
        batchBalance a'.stake_batch + m < U128_BOUND →
        ∃ i c₂ a₂, deposit_near_for_account_to_stake c a m = .ok (c₂, a₂, i) ∧
          c₂.stake_batch = some ⟨i, batchBalance c'.stake_batch + m⟩ ∧
          a₂.stake_batch = some ⟨i, batchBalance a'.stake_batch + m⟩ ∧
          c₂.next_stake_batch = c'.next_stake_batch ∧
          a₂.next_stake_batch = a'.next_stake_batch ∧
          (c'.stake_batch = none → i = c'.batch_id_sequence + 1 ∧
            c₂.batch_id_sequence = c'.batch_id_sequence + 1) ∧
          (∀ cb, c'.stake_batch = some cb → i = cb.id ∧
            c₂.batch_id_sequence = c'.batch_id_sequence)) ∧
      (c'.stake_batch_lock ≠ none →
        (∀ ab, a'.next_stake_batch = some ab →
          ∃ cb, c'.next_stake_batch = some cb ∧ cb.id = ab.id) →
        batchBalance c'.next_stake_batch + m < U128_BOUND →
        batchBalance a'.next_stake_batch + m < U128_BOUND →
        ∃ i c₂ a₂, deposit_near_for_account_to_stake c a m = .ok (c₂, a₂, i) ∧
          c₂.next_stake_batch = some ⟨i, batchBalance c'.next_stake_batch + m⟩ ∧
          a₂.next_stake_batch = some ⟨i, batchBalance a'.next_stake_batch + m⟩ ∧
          c₂.stake_batch = c'.stake_batch ∧
          a₂.stake_batch = a'.stake_batch ∧
          (c'.next_stake_batch = none → i = c'.batch_id_sequence + 1 ∧
            c₂.batch_id_sequence = c'.batch_id_sequence + 1) ∧
          (∀ cb, c'.next_stake_batch = some cb → i = cb.id ∧
            c₂.batch_id_sequence = c'.batch_id_sequence))) := by
  constructor
  · simp [deposit_near_for_account_to_stake]
  · intro hm
    have hm0 : ¬ m = 0 := Nat.pos_iff_ne_zero.mp hm
    constructor
    · intro hlock hcoh hubC hubA
      have hlocked : c'.stake_batch_locked = false := by
        simp [Contract.stake_batch_locked, hlock]
      cases hcb : c'.stake_batch with
      | some cb =>
        simp only [hcb, batchBalance_some] at hubC
        cases hab : a'.stake_batch with
        | some ab =>
          obtain ⟨cb', hcb', hid⟩ := hcoh ab hab
          rw [hcb] at hcb'
          obtain rfl : cb = cb' := by injection hcb'
          simp only [hab, batchBalance_some] at hubA
          have hmain : deposit_near_for_account_to_stake c a m =
              .ok ({ c' with stake_batch := some (Batch.mk cb.id (cb.balance + m)) },
                   { a' with stake_batch := some (Batch.mk ab.id (ab.balance + m)) },
                   ab.id) := by
            unfold deposit_near_for_account_to_stake
            simp only [hm0, if_false, hclaim, ok_bind, hlocked, Bool.not_false,
              if_true, hcb, hab, Batch.add, checkedAdd, if_pos hubC,
              Option.map_some', liftOv_some, Option.getD_some, if_pos hubA]
          refine ⟨ab.id, _, _, hmain, by simp [hcb, hid], by simp [hab], rfl, rfl, ?_, ?_⟩
          · intro h; exact Option.noConfusion h
          · intro cb'' hcb''
            obtain rfl : cb = cb'' := by injection hcb''
            exact ⟨hid.symm, rfl⟩
        | none =>
          simp only [hab, batchBalance_none, Nat.zero_add] at hubA
          have hmain : deposit_near_for_account_to_stake c a m =
              .ok ({ c' with stake_batch := some (Batch.mk cb.id (cb.balance + m)) },
                   { a' with stake_batch := some (Batch.mk cb.id m) },
                   cb.id) := by
            unfold deposit_near_for_account_to_stake
            simp only [hm0, if_false, hclaim, ok_bind, hlocked, Bool.not_false,
              if_true, hcb, hab, Batch.add, checkedAdd, if_pos hubC,
              Option.map_some', liftOv_some, Option.getD_none, Nat.zero_add,
              if_pos hubA]
          refine ⟨cb.id, _, _, hmain, by simp [hcb], by simp [hab], rfl, rfl, ?_, ?_⟩
          · intro h; exact Option.noConfusion h
          · intro cb'' hcb''
            obtain rfl : cb = cb'' := by injection hcb''
            exact ⟨rfl, rfl⟩
      | none =>
        have hab : a'.stake_batch = none := by
          cases hab : a'.stake_batch with
          | some ab =>
            obtain ⟨cb', hcb', _⟩ := hcoh ab hab
            rw [hcb] at hcb'; cases hcb'
          | none => rfl
        simp only [hcb, batchBalance_none, Nat.zero_add] at hubC
        simp only [hab, batchBalance_none, Nat.zero_add] at hubA
        have hmain : deposit_near_for_account_to_stake c a m =
            .ok ({ c' with
                    batch_id_sequence := c'.batch_id_sequence + 1
                    stake_batch :=
                      some (Batch.mk (c'.batch_id_sequence + 1) m) },
                 { a' with stake_batch := some (Batch.mk (c'.batch_id_sequence + 1) m) },
                 c'.batch_id_sequence + 1) := by
          unfold deposit_near_for_account_to_stake
          simp only [hm0, if_false, hclaim, ok_bind, hlocked, Bool.not_false,
            if_true, hcb, hab, Contract.new_batch, Batch.add, checkedAdd,
            if_pos hubC, Option.map_some', liftOv_some, Option.getD_none,
            Nat.zero_add, if_pos hubA]
        refine ⟨c'.batch_id_sequence + 1, _, _, hmain, by simp [hcb], by simp [hab],
          rfl, rfl, ?_, ?_⟩
        · intro _; exact ⟨rfl, rfl⟩
        · intro cb'' hcb''; exact Option.noConfusion hcb''
    · intro hlock hcoh hubC hubA
      have hlocked : c'.stake_batch_locked = true := by
        unfold Contract.stake_batch_locked
        cases h : c'.stake_batch_lock with
        | some _ => rfl
        | none => exact absurd h hlock
      cases hcb : c'.next_stake_batch with
      | some cb =>
        simp only [hcb, batchBalance_some] at hubC
        cases hab : a'.next_stake_batch with
        | some ab =>
          obtain ⟨cb', hcb', hid⟩ := hcoh ab hab
          rw [hcb] at hcb'
          obtain rfl : cb = cb' := by injection hcb'
          simp only [hab, batchBalance_some] at hubA
          have hmain : deposit_near_for_account_to_stake c a m =
              .ok ({ c' with next_stake_batch := some (Batch.mk cb.id (cb.balance + m)) },
                   { a' with next_stake_batch := some (Batch.mk ab.id (ab.balance + m)) },
                   ab.id) := by
            unfold deposit_near_for_account_to_stake
            simp only [hm0, if_false, hclaim, ok_bind, hlocked, Bool.not_true,
              Bool.false_eq_true, if_false, hcb, hab, Batch.add, checkedAdd, if_pos hubC,
              Option.map_some', liftOv_some, Option.getD_some, if_pos hubA]
          refine ⟨ab.id, _, _, hmain, by simp [hcb, hid], by simp [hab], rfl, rfl, ?_, ?_⟩
          · intro h; exact Option.noConfusion h
          · intro cb'' hcb''
            obtain rfl : cb = cb'' := by injection hcb''
            exact ⟨hid.symm, rfl⟩
        | none =>
          simp only [hab, batchBalance_none, Nat.zero_add] at hubA
          have hmain : deposit_near_for_account_to_stake c a m =
              .ok ({ c' with next_stake_batch := some (Batch.mk cb.id (cb.balance + m)) },
                   { a' with next_stake_batch := some (Batch.mk cb.id m) },
                   cb.id) := by
            unfold deposit_near_for_account_to_stake
            simp only [hm0, if_false, hclaim, ok_bind, hlocked, Bool.not_true,
              Bool.false_eq_true, if_false, hcb, hab, Batch.add, checkedAdd, if_pos hubC,
              Option.map_some', liftOv_some, Option.getD_none, Nat.zero_add,
              if_pos hubA]
          refine ⟨cb.id, _, _, hmain, by simp [hcb], by simp [hab], rfl, rfl, ?_, ?_⟩
          · intro h; exact Option.noConfusion h
          · intro cb'' hcb''
            obtain rfl : cb = cb'' := by injection hcb''
            exact ⟨rfl, rfl⟩
      | none =>
        have hab : a'.next_stake_batch = none := by
          cases hab : a'.next_stake_batch with
          | some ab =>
            obtain ⟨cb', hcb', _⟩ := hcoh ab hab
            rw [hcb] at hcb'; cases hcb'
          | none => rfl
        simp only [hcb, batchBalance_none, Nat.zero_add] at hubC
        simp only [hab, batchBalance_none, Nat.zero_add] at hubA
        have hmain : deposit_near_for_account_to_stake c a m =
            .ok ({ c' with
                    batch_id_sequence := c'.batch_id_sequence + 1
                    next_stake_batch :=
                      some (Batch.mk (c'.batch_id_sequence + 1) m) },
                 { a' with next_stake_batch := some (Batch.mk (c'.batch_id_sequence + 1) m) },
                 c'.batch_id_sequence + 1) := by
          unfold deposit_near_for_account_to_stake
          simp only [hm0, if_false, hclaim, ok_bind, hlocked, Bool.not_true,
            Bool.false_eq_true, if_false, hcb, hab, Contract.new_batch, Batch.add, checkedAdd,
            if_pos hubC, Option.map_some', liftOv_some, Option.getD_none,
            Nat.zero_add, if_pos hubA]
        refine ⟨c'.batch_id_sequence + 1, _, _, hmain, by simp [hcb], by simp [hab],
          rfl, rfl, ?_, ?_⟩
        · intro _; exact ⟨rfl, rfl⟩
        · intro cb'' hcb''; exact Option.noConfusion hcb''

/-- C5 witness: a first deposit of 5 into the empty contract by a fresh
account opens batch 1 on both levels. -/
theorem c5_deposit_batching_witness :
    deposit_near_for_account_to_stake emptyContract Account.new 0 =
      .error .depositRequired ∧
    ∃ i c₂ a₂,
      deposit_near_for_account_to_stake emptyContract Account.new 5 = .ok (c₂, a₂, i) ∧
      c₂.stake_batch = some ⟨i, batchBalance emptyContract.stake_batch + 5⟩ ∧
      a₂.stake_batch = some ⟨i, batchBalance Account.new.stake_batch + 5⟩ ∧
      c₂.next_stake_batch = emptyContract.next_stake_batch ∧
      a₂.next_stake_batch = Account.new.next_stake_batch ∧
      (emptyContract.stake_batch = none → i = emptyContract.batch_id_sequence + 1 ∧
        c₂.batch_id_sequence = emptyContract.batch_id_sequence + 1) ∧
      (∀ cb, emptyContract.stake_batch = some cb → i = cb.id ∧
        c₂.batch_id_sequence = emptyContract.batch_id_sequence) := by
  have h := c5_deposit_batching emptyContract Account.new 5
    emptyContract Account.new false (by decide)
  exact ⟨h.1, (h.2 (by decide)).1 (by decide)
    (by intro ab hab; cases hab) (by decide) (by decide)⟩

/-!
## Claim C7 — redeem batching
-/

/-- C7: a zero redeem request is rejected; a positive request fails with
the insufficient-balance error when the account's post-settlement STAKE
balance does not cover it; otherwise the shares are debited from the STAKE
balance immediately and land in the current contract/account
`redeem_stake_batch` pair when the redeem side is unlocked and in the
`next` pair otherwise, the pair being created under a fresh id exactly
when the contract-level slot was empty, with matching account/contract
ids. -/
theorem c7_redeem_batching (c : Contract) (a : Account) (m : Nat)
    (c' : Contract) (a' : Account) (bcl : Bool)
    (hclaim : claim_receipt_funds c a = .ok (c', a', bcl)) :
    redeem_stake_for_account c a 0 = .error .zeroRedeemAmount ∧
    (0 < m →
      (a'.can_redeem m = false →
        redeem_stake_for_account c a m = .error .insufficientStakeForRedeem) ∧
      (∀ sbal, a'.stake = some sbal → m ≤ sbal →
        (c'.redeem_stake_batch_lock = none →
          (∀ ab, a'.redeem_stake_batch = some ab →
            ∃ cb, c'.redeem_stake_batch = some cb ∧ cb.id = ab.id) →
          batchBalance c'.redeem_stake_batch + m < U128_BOUND →
          batchBalance a'.redeem_stake_batch + m < U128_BOUND →
          ∃ i c₂ a₂, redeem_stake_for_account c a m = .ok (c₂, a₂, i) ∧
            a₂.stake = (if 0 < sbal - m then some (sbal - m) else none) ∧
            c₂.redeem_stake_batch =
              some ⟨i, batchBalance c'.redeem_stake_batch + m⟩ ∧
            a₂.redeem_stake_batch =
              some ⟨i, batchBalance a'.redeem_stake_batch + m⟩ ∧
            c₂.next_redeem_stake_batch = c'.next_redeem_stake_batch ∧
            a₂.next_redeem_stake_batch = a'.next_redeem_stake_batch ∧
            (c'.redeem_stake_batch = none → i = c'.batch_id_sequence + 1) ∧
            (∀ cb, c'.redeem_stake_batch = some cb → i = cb.id)) ∧
        (c'.redeem_stake_batch_lock ≠ none →
          (∀ ab, a'.next_redeem_stake_batch = some ab →
            ∃ cb, c'.next_redeem_stake_batch = some cb ∧ cb.id = ab.id) →
          batchBalance c'.next_redeem_stake_batch + m < U128_BOUND →
          batchBalance a'.next_redeem_stake_batch + m < U128_BOUND →
          ∃ i c₂ a₂, redeem_stake_for_account c a m = .ok (c₂, a₂, i) ∧
            a₂.stake = (if 0 < sbal - m then some (sbal - m) else none) ∧
            c₂.next_redeem_stake_batch =
              some ⟨i, batchBalance c'.next_redeem_stake_batch + m⟩ ∧
            a₂.next_redeem_stake_batch =
              some ⟨i, batchBalance a'.next_redeem_stake_batch + m⟩ ∧
            c₂.redeem_stake_batch = c'.redeem_stake_batch ∧
            a₂.redeem_stake_batch = a'.redeem_stake_batch ∧
            (c'.next_redeem_stake_batch = none → i = c'.batch_id_sequence + 1) ∧
            (∀ cb, c'.next_redeem_stake_batch = some cb → i = cb.id)))) := by
  constructor
  · simp [redeem_stake_for_account]
  · intro hm
    have hm0 : ¬ m = 0 := Nat.pos_iff_ne_zero.mp hm
    constructor
    · intro hcr
      unfold redeem_stake_for_account
      simp only [hm0, if_false, hclaim, ok_bind, hcr, Bool.not_false, if_true]
    · intro sbal hstake hle
      have hcr : a'.can_redeem m = true := by
        simp [Account.can_redeem, hstake, hle]
      constructor
      · intro hlock hcoh hubC hubA
        cases hcb : c'.redeem_stake_batch with
        | some cb =>
          simp only [hcb, batchBalance_some] at hubC
          cases hab : a'.redeem_stake_batch with
          | some ab =>
            obtain ⟨cb', hcb', hid⟩ := hcoh ab hab
            rw [hcb] at hcb'
            obtain rfl : cb = cb' := by injection hcb'
            simp only [hab, batchBalance_some] at hubA
            have hmain : redeem_stake_for_account c a m =
                .ok ({ c' with redeem_stake_batch := some (Batch.mk cb.id (cb.balance + m)) },
                     { a' with
                        stake := if 0 < sbal - m then some (sbal - m) else none
                        redeem_stake_batch := some (Batch.mk ab.id (ab.balance + m)) },
                     ab.id) := by
              unfold redeem_stake_for_account
              simp only [hm0, if_false, hclaim, ok_bind, hcr, Bool.not_true,
                Bool.false_eq_true, if_false, hstake, checkedSub, if_pos hle,
                liftOv_some, ok_bind, hlock, hcb, hab, Batch.add, checkedAdd,
                if_pos hubC, Option.map_some', Option.getD_some, if_pos hubA]
            refine ⟨ab.id, _, _, hmain, rfl, by simp [hid], by simp, rfl, rfl,
              ?_, ?_⟩
            · intro h; exact Option.noConfusion h
            · intro cb'' hcb''
              obtain rfl : cb = cb'' := by injection hcb''
              exact hid.symm
          | none =>
            simp only [hab, batchBalance_none, Nat.zero_add] at hubA
            have hmain : redeem_stake_for_account c a m =
                .ok ({ c' with redeem_stake_batch := some (Batch.mk cb.id (cb.balance + m)) },
                     { a' with
                        stake := if 0 < sbal - m then some (sbal - m) else none
                        redeem_stake_batch := some (Batch.mk cb.id m) },
                     cb.id) := by
              unfold redeem_stake_for_account
              simp only [hm0, if_false, hclaim, ok_bind, hcr, Bool.not_true,
                Bool.false_eq_true, if_false, hstake, checkedSub, if_pos hle,
                liftOv_some, ok_bind, hlock, hcb, hab, Batch.add, checkedAdd,
                if_pos hubC, Option.map_some', Option.getD_none, Nat.zero_add,
                if_pos hubA]
            refine ⟨cb.id, _, _, hmain, rfl, by simp [hcb], by simp [hab], rfl,
              rfl, ?_, ?_⟩
            · intro h; exact Option.noConfusion h
            · intro cb'' hcb''
              obtain rfl : cb = cb'' := by injection hcb''
              rfl
        | none =>
          have hab : a'.redeem_stake_batch = none := by
            cases hab : a'.redeem_stake_batch with
            | some ab =>
              obtain ⟨cb', hcb', _⟩ := hcoh ab hab
              rw [hcb] at hcb'; cases hcb'
            | none => rfl
          simp only [hcb, batchBalance_none, Nat.zero_add] at hubC
          simp only [hab, batchBalance_none, Nat.zero_add] at hubA
          have hmain : redeem_stake_for_account c a m =
              .ok ({ c' with
                      batch_id_sequence := c'.batch_id_sequence + 1
                      redeem_stake_batch := some (Batch.mk (c'.batch_id_sequence + 1) m) },
                   { a' with
                      stake := if 0 < sbal - m then some (sbal - m) else none
                      redeem_stake_batch := some (Batch.mk (c'.batch_id_sequence + 1) m) },
                   c'.batch_id_sequence + 1) := by
            unfold redeem_stake_for_account
            simp only [hm0, if_false, hclaim, ok_bind, hcr, Bool.not_true,
              Bool.false_eq_true, if_false, hstake, checkedSub, if_pos hle,
              liftOv_some, ok_bind, hlock, hcb, hab, Contract.new_batch,
              Batch.add, checkedAdd, if_pos hubC, Option.map_some',
              Option.getD_none, Nat.zero_add, if_pos hubA]
          refine ⟨c'.batch_id_sequence + 1, _, _, hmain, rfl, by simp [hcb],
            by simp [hab], rfl, rfl, ?_, ?_⟩
          · intro _; rfl
          · intro cb'' hcb''; exact Option.noConfusion hcb''
      · intro hlock hcoh hubC hubA
        obtain ⟨lk, hlk⟩ : ∃ lk, c'.redeem_stake_batch_lock = some lk := by
          cases h : c'.redeem_stake_batch_lock with
          | some lk => exact ⟨lk, rfl⟩
          | none => exact absurd h hlock
        cases hcb : c'.next_redeem_stake_batch with
        | some cb =>
          simp only [hcb, batchBalance_some] at hubC
          cases hab : a'.next_redeem_stake_batch with
          | some ab =>
            obtain ⟨cb', hcb', hid⟩ := hcoh ab hab
            rw [hcb] at hcb'
            obtain rfl : cb = cb' := by injection hcb'
            simp only [hab, batchBalance_some] at hubA
            have hmain : redeem_stake_for_account c a m =
                .ok ({ c' with next_redeem_stake_batch := some (Batch.mk cb.id (cb.balance + m)) },
                     { a' with
                        stake := if 0 < sbal - m then some (sbal - m) else none
                        next_redeem_stake_batch := some (Batch.mk ab.id (ab.balance + m)) },
                     ab.id) := by
              unfold redeem_stake_for_account
              simp only [hm0, if_false, hclaim, ok_bind, hcr, Bool.not_true,
                Bool.false_eq_true, if_false, hstake, checkedSub, if_pos hle,
                liftOv_some, ok_bind, hlk, hcb, hab, Batch.add, checkedAdd,
                if_pos hubC, Option.map_some', Option.getD_some, if_pos hubA]
            refine ⟨ab.id, _, _, hmain, rfl, by simp [hid], by simp, rfl, rfl,
              ?_, ?_⟩
            · intro h; exact Option.noConfusion h
            · intro cb'' hcb''
              obtain rfl : cb = cb'' := by injection hcb''
              exact hid.symm
          | none =>
            simp only [hab, batchBalance_none, Nat.zero_add] at hubA
            have hmain : redeem_stake_for_account c a m =
                .ok ({ c' with next_redeem_stake_batch := some (Batch.mk cb.id (cb.balance + m)) },
                     { a' with
                        stake := if 0 < sbal - m then some (sbal - m) else none
                        next_redeem_stake_batch := some (Batch.mk cb.id m) },
                     cb.id) := by
              unfold redeem_stake_for_account
              simp only [hm0, if_false, hclaim, ok_bind, hcr, Bool.not_true,
                Bool.false_eq_true, if_false, hstake, checkedSub, if_pos hle,
                liftOv_some, ok_bind, hlk, hcb, hab, Batch.add, checkedAdd,
                if_pos hubC, Option.map_some', Option.getD_none, Nat.zero_add,
                if_pos hubA]
            refine ⟨cb.id, _, _, hmain, rfl, by simp [hcb], by simp [hab], rfl,
              rfl, ?_, ?_⟩
            · intro h; exact Option.noConfusion h
            · intro cb'' hcb''
              obtain rfl : cb = cb'' := by injection hcb''
              rfl
        | none =>
          have hab : a'.next_redeem_stake_batch = none := by
            cases hab : a'.next_redeem_stake_batch with
            | some ab =>
              obtain ⟨cb', hcb', _⟩ := hcoh ab hab
              rw [hcb] at hcb'; cases hcb'
            | none => rfl
          simp only [hcb, batchBalance_none, Nat.zero_add] at hubC
          simp only [hab, batchBalance_none, Nat.zero_add] at hubA
          have hmain : redeem_stake_for_account c a m =
              .ok ({ c' with
                      batch_id_sequence := c'.batch_id_sequence + 1
                      next_redeem_stake_batch := some (Batch.mk (c'.batch_id_sequence + 1) m) },
                   { a' with
                      stake := if 0 < sbal - m then some (sbal - m) else none
                      next_redeem_stake_batch := some (Batch.mk (c'.batch_id_sequence + 1) m) },
                   c'.batch_id_sequence + 1) := by
            unfold redeem_stake_for_account
            simp only [hm0, if_false, hclaim, ok_bind, hcr, Bool.not_true,
              Bool.false_eq_true, if_false, hstake, checkedSub, if_pos hle,
              liftOv_some, ok_bind, hlk, hcb, hab, Contract.new_batch,
              Batch.add, checkedAdd, if_pos hubC, Option.map_some',
              Option.getD_none, Nat.zero_add, if_pos hubA]
          refine ⟨c'.batch_id_sequence + 1, _, _, hmain, rfl, by simp [hcb],
            by simp [hab], rfl, rfl, ?_, ?_⟩
          · intro _; rfl
          · intro cb'' hcb''; exact Option.noConfusion hcb''

/-- C7 witness: redeeming 4 of 10 STAKE held by a fresh account against
the empty (unlocked) contract opens redeem batch 1 on both levels and
debits the shares immediately. -/
theorem c7_redeem_batching_witness :
    redeem_stake_for_account emptyContract
      { Account.new with stake := some 10 } 0 = .error .zeroRedeemAmount ∧
    ∃ i c₂ a₂,
      redeem_stake_for_account emptyContract
        { Account.new with stake := some 10 } 4 = .ok (c₂, a₂, i) ∧
      a₂.stake = (if 0 < 10 - 4 then some (10 - 4) else none) ∧
      c₂.redeem_stake_batch = some ⟨i, batchBalance emptyContract.redeem_stake_batch + 4⟩ := by
  have h := c7_redeem_batching emptyContract { Account.new with stake := some 10 } 4
    emptyContract { Account.new with stake := some 10 } false (by decide)
  have h2 := (((h.2 (by decide)).2 10 rfl (by decide)).1 (by decide)
    (by intro ab hab; cases hab) (by decide) (by decide))
  obtain ⟨i, c₂, a₂, h3, h4, h5, _⟩ := h2
  exact ⟨h.1, i, c₂, a₂, h3, h4, h5⟩

/-!
## Claim C6 — withdrawing uncommitted stake deposits

Withdrawing from the account's next stake batch does not consult the
locks, but a *partial* withdrawal that leaves the next batch non-empty
must still leave at least the minimum required deposit
(`check_stake_batch_min_required_near_balance`), so "always succeeds" is
too strong.  Withdrawing from the current batch requires `can_run_batch`.
-/

/-- C6 counterexample: withdrawing 1999 of the 2000 in the account's next
stake batch is rejected — the 1 yoctoNEAR remainder is below the minimum
required deposit (1000 yoctoNEAR at the default 1:1 rate) — refuting
"withdrawing from the next stake batch always succeeds". -/
theorem c6_next_batch_withdrawal_can_fail :
    withdraw_from_stake_batch c6Contract c6Account 1999 =
      .error .minRequiredDeposit := by
  decide

/-- C6 (amended): withdrawing from the account's next stake batch succeeds
regardless of the lock state provided the batch covers the amount and the
withdrawal either empties the account's batch or leaves at least the
minimum required deposit; withdrawing from the current batch while the
stake lock is active or an unstake round is in flight is rejected with the
lock-conflict error (and, panics aborting the invocation, a rejected
withdrawal changes no state). -/
theorem c6_withdraw_stake_batch_lock_rules (c : Contract) (a : Account) (m : Nat)
    (c' : Contract) (a' : Account) (bcl : Bool)
    (hclaim : claim_receipt_funds c a = .ok (c', a', bcl)) :
    (∀ ab, a'.next_stake_batch = some ab →
      ∀ cb, c'.next_stake_batch = some cb →
      m ≤ ab.balance → m ≤ cb.balance →
      ∀ minv, c'.stake_token_value.stake_to_near 1000 = some minv →
      (ab.balance - m = 0 ∨ minv ≤ ab.balance - m) →
      ∃ c₂ a₂, withdraw_from_stake_batch c a m = .ok (c₂, a₂) ∧
        a₂.next_stake_batch =
          (if ab.balance - m = 0 then none
           else some (Batch.mk ab.id (ab.balance - m))) ∧
        c₂.next_stake_batch =
          (if cb.balance - m = 0 then none
           else some (Batch.mk cb.id (cb.balance - m))) ∧
        a₂.stake_batch = a'.stake_batch ∧
        c₂.stake_batch = c'.stake_batch) ∧
    (a'.next_stake_batch = none →
      ∀ ab, a'.stake_batch = some ab →
      c'.can_run_batch = false →
      withdraw_from_stake_batch c a m = .error .blockedByBatchRunning) := by
  constructor
  · intro ab hab cb hcb hleA hleC minv hminv hor
    by_cases hrem : ab.balance - m = 0
    · refine ⟨{ c' with next_stake_batch := if cb.balance - m = 0 then none else some (Batch.mk cb.id (cb.balance - m)) },
        { a' with next_stake_batch := none }, ?_, by simp [hrem], rfl, rfl, rfl⟩
      unfold withdraw_from_stake_batch
      simp only [hclaim, ok_bind, hab, hcb, Batch.remove, checkedSub,
        if_pos hleC, Option.map_some', liftOv_some, ok_bind, if_pos hleA,
        hrem, if_true]
    · have hge : minv ≤ ab.balance - m := by
        cases hor with
        | inl h => exact absurd h hrem
        | inr h => exact h
      refine ⟨{ c' with next_stake_batch := if cb.balance - m = 0 then none else some (Batch.mk cb.id (cb.balance - m)) },
        { a' with next_stake_batch := some (Batch.mk ab.id (ab.balance - m)) },
        ?_, by simp [hrem], rfl, rfl, rfl⟩
      unfold withdraw_from_stake_batch
      simp only [hclaim, ok_bind, hab, hcb, Batch.remove, checkedSub,
        if_pos hleC, Option.map_some', liftOv_some, ok_bind, if_pos hleA,
        hrem, if_false]
      unfold check_stake_batch_min_required_near_balance
        Contract.min_required_near_deposit
      simp only [hminv, liftOv_some, ok_bind, if_pos hge]
  · intro hnone ab hab hcrb
    unfold withdraw_from_stake_batch
    simp only [hclaim, ok_bind, hnone, hab, hcrb, Bool.not_false, if_true]

/-- C6 witness: a full withdrawal from the next batch succeeds while the
stake side is locked, and a current-batch withdrawal is rejected while
`Staking` is in flight. -/
theorem c6_withdraw_stake_batch_lock_rules_witness :
    (∃ c₂ a₂, withdraw_from_stake_batch c6Contract c6Account 2000 =
        .ok (c₂, a₂) ∧
      a₂.next_stake_batch = (if 2000 - 2000 = 0 then none
        else some (Batch.mk 2 (2000 - 2000))) ∧
      c₂.next_stake_batch = (if 2000 - 2000 = 0 then none
        else some (Batch.mk 2 (2000 - 2000))) ∧
      a₂.stake_batch = c6Account.stake_batch ∧
      c₂.stake_batch = c6Contract.stake_batch) ∧
    withdraw_from_stake_batch
      { emptyContract with
          stake_batch_lock := some .Staking
          stake_batch := some ⟨1, 10⟩ }
      { Account.new with stake_batch := some ⟨1, 10⟩ } 5 =
      .error .blockedByBatchRunning := by
  have h := c6_withdraw_stake_batch_lock_rules c6Contract c6Account 2000
    c6Contract c6Account false (by decide)
  have h2 := c6_withdraw_stake_batch_lock_rules
    { emptyContract with
        stake_batch_lock := some .Staking
        stake_batch := some ⟨1, 10⟩ }
    { Account.new with stake_batch := some ⟨1, 10⟩ } 5
    { emptyContract with
        stake_batch_lock := some .Staking
        stake_batch := some ⟨1, 10⟩ }
    { Account.new with stake_batch := some ⟨1, 10⟩ } false (by decide)
  exact ⟨h.1 ⟨2, 2000⟩ rfl ⟨2, 2000⟩ rfl (by decide) (by decide) 1000 (by decide)
      (Or.inl (by decide)),
    h2.2 rfl ⟨1, 10⟩ rfl (by decide)⟩

/-!
## Claim C8 — checked token-amount arithmetic and wide multiplication
-/

/-- C8: the embedded token-amount addition and subtraction are exact and
never wrap: any defined result equals the mathematical sum/difference (a
wrapped result would differ by `2¹²⁸`), definedness is exactly absence of
overflow/underflow, and the products the conversions feed to the 256-bit
intermediate when both operands are `u128` values stay below `2²⁵⁶`, so the
wide multiplication itself cannot overflow. -/
theorem c8_checked_arithmetic (a b : Nat) (v : StakeTokenValue) :
    (∀ r, checkedAdd a b = some r → r = a + b) ∧
    (∀ r, checkedSub a b = some r → r + b = a) ∧
    ((checkedAdd a b).isSome ↔ a + b < U128_BOUND) ∧
    ((checkedSub a b).isSome ↔ b ≤ a) ∧
    (a < U128_BOUND → v.total_stake_supply < U128_BOUND →
      a * v.total_stake_supply < 2 ^ 256) ∧
    (a < U128_BOUND → v.total_staked_near_balance < U128_BOUND →
      a * v.total_staked_near_balance < 2 ^ 256) := by
  refine ⟨?_, ?_, ?_, ?_, ?_, ?_⟩
  · intro r h
    unfold checkedAdd at h
    split at h <;> simp_all
  · intro r h
    unfold checkedSub at h
    split at h <;> simp_all
    omega
  · unfold checkedAdd
    split <;> simp_all
  · unfold checkedSub
    split <;> simp_all
  · intro h1 h2
    calc a * v.total_stake_supply < U128_BOUND * U128_BOUND :=
          Nat.mul_lt_mul_of_lt_of_lt h1 h2
      _ = 2 ^ 256 := by unfold U128_BOUND; ring
  · intro h1 h2
    calc a * v.total_staked_near_balance < U128_BOUND * U128_BOUND :=
          Nat.mul_lt_mul_of_lt_of_lt h1 h2
      _ = 2 ^ 256 := by unfold U128_BOUND; ring

/-- C8 witness: the arithmetic theorem applied at `a = 3`, `b = 2` and a
concrete `StakeTokenValue`. -/
theorem c8_checked_arithmetic_witness :
    (3 : Nat) = 1 + 2 ∧ (1 : Nat) + 2 = 3 ∧
    (3 : Nat) * 2 < 2 ^ 256 :=
  ⟨(c8_checked_arithmetic 1 2 ⟨0, 3, 2⟩).1 3 (by decide),
   (c8_checked_arithmetic 3 2 ⟨0, 3, 2⟩).2.1 1 (by decide),
   (c8_checked_arithmetic 3 2 ⟨0, 3, 2⟩).2.2.2.2.1 (by decide) (by decide)⟩

/-!
## Claim C9 — `StakeTokenValue::new` clamps below 1:1
-/

/-- C9: the constructor silently replaces a staked balance below the supply
by the supply, every constructed value satisfies balance ≥ supply, and
consequently converting STAKE to NEAR never returns less than the input
while converting NEAR to STAKE never returns more (the per-share value
never falls below 1:1). -/
theorem c9_new_clamps_value_at_least_one_to_one (bth bal supply x : Nat) :
    (bal < supply →
      StakeTokenValue.new bth bal supply =
        { block_time_height := bth
          total_staked_near_balance := supply
          total_stake_supply := supply }) ∧
    (StakeTokenValue.new bth bal supply).total_stake_supply ≤
      (StakeTokenValue.new bth bal supply).total_staked_near_balance ∧
    (∀ r, (StakeTokenValue.new bth bal supply).stake_to_near x = some r → x ≤ r) ∧
    (x < U128_BOUND →
      ∃ r, (StakeTokenValue.new bth bal supply).near_to_stake x = some r ∧ r ≤ x) := by
  have hfields : (StakeTokenValue.new bth bal supply).total_stake_supply ≤
      (StakeTokenValue.new bth bal supply).total_staked_near_balance ∧
      (StakeTokenValue.new bth bal supply).total_stake_supply = supply := by
    unfold StakeTokenValue.new
    split <;> simp
    omega
  refine ⟨?_, hfields.1, ?_, ?_⟩
  · intro h
    unfold StakeTokenValue.new
    simp [h]
  · intro r h
    set v := StakeTokenValue.new bth bal supply with hv
    unfold StakeTokenValue.stake_to_near at h
    split at h
    · simp_all
    · rename_i hnz
      have hbpos : 0 < v.total_staked_near_balance := by omega
      have hspos : 0 < v.total_stake_supply := by omega
      unfold as_u128 at h
      split at h
      · have hle : x * v.total_stake_supply ≤ x * v.total_staked_near_balance :=
          Nat.mul_le_mul_left x hfields.1
        have : x ≤ x * v.total_staked_near_balance / v.total_stake_supply := by
          rw [Nat.le_div_iff_mul_le hspos]
          exact hle
        have hr := Option.some.inj h
        omega
      · exact absurd h (by simp)
  · intro hx
    set v := StakeTokenValue.new bth bal supply with hv
    unfold StakeTokenValue.near_to_stake
    split
    · exact ⟨x, rfl, Nat.le_refl x⟩
    · rename_i hnz
      have hbpos : 0 < v.total_staked_near_balance := by omega
      have hle : x * v.total_stake_supply / v.total_staked_near_balance ≤ x := by
        have h1 : x * v.total_stake_supply ≤ x * v.total_staked_near_balance :=
          Nat.mul_le_mul_left x hfields.1
        have h2 : x * v.total_staked_near_balance / v.total_staked_near_balance = x :=
          Nat.mul_div_cancel x hbpos
        calc x * v.total_stake_supply / v.total_staked_near_balance
            ≤ x * v.total_staked_near_balance / v.total_staked_near_balance :=
              Nat.div_le_div_right h1
          _ = x := h2
      refine ⟨x * v.total_stake_supply / v.total_staked_near_balance, ?_, hle⟩
      unfold as_u128
      simp [Nat.lt_of_le_of_lt hle hx]

/-- C9 witness: the constructor theorem applied at balance 2, supply 3
(clamped to 3/3) and amount 5. -/
theorem c9_new_clamps_value_at_least_one_to_one_witness :
    StakeTokenValue.new 0 2 3 =
      { block_time_height := 0
        total_staked_near_balance := 3
        total_stake_supply := 3 } ∧
    (5 : Nat) ≤ 5 ∧
    ∃ r, (StakeTokenValue.new 0 2 3).near_to_stake 5 = some r ∧ r ≤ 5 :=
  ⟨(c9_new_clamps_value_at_least_one_to_one 0 2 3 5).1 (by decide),
   (c9_new_clamps_value_at_least_one_to_one 0 2 3 5).2.2.1 5 (by decide),
   (c9_new_clamps_value_at_least_one_to_one 0 2 3 5).2.2.2 (by decide)⟩

/-!
## Claim C10 — NEAR withdrawals draw shortfalls from the liquidity pool

The claim entrypoints settle receipts first; settlement never changes the
combined `near_liquidity_pool + total_near` (pool claims move value from
the pool into `total_near` one-for-one, all other claims touch neither),
which the following lemmas establish before the main theorem.
-/

theorem checkedSub_eq_some {a b r : Nat} (h : checkedSub a b = some r) :
    b ≤ a ∧ r = a - b := by
  unfold checkedSub at h
  split at h
  · exact ⟨by assumption, (Option.some.inj h).symm⟩
  · exact Option.noConfusion h

theorem checkedAdd_eq_some {a b r : Nat} (h : checkedAdd a b = some r) :
    r = a + b ∧ a + b < U128_BOUND := by
  unfold checkedAdd at h
  split at h
  · exact ⟨(Option.some.inj h).symm, by assumption⟩
  · exact Option.noConfusion h

/-- Claiming minted STAKE for one batch touches neither the liquidity pool
nor `total_near`. -/
theorem claim_stake_tokens_for_batch_pool_total (c : Contract) (a : Account)
    (b : Batch) (r : StakeBatchReceipt) (c₂ : Contract) (a₂ : Account)
    (h : claim_stake_tokens_for_batch c a b r = .ok (c₂, a₂)) :
    c₂.near_liquidity_pool = c.near_liquidity_pool ∧ c₂.total_near = c.total_near := by
  unfold claim_stake_tokens_for_batch at h
  cases h1 : r.stake_token_value.near_to_stake b.balance with
  | none =>
    simp only [h1, liftOv_none, error_bind] at h
    exact Except.noConfusion h
  | some s =>
    simp only [h1, liftOv_some, ok_bind] at h
    unfold Account.apply_stake_credit at h
    cases h2 : checkedAdd (a.stake.getD 0) s with
    | none =>
      simp only [h2, Option.map_none', liftOv_none, error_bind] at h
      exact Except.noConfusion h
    | some ns =>
      simp only [h2, Option.map_some', liftOv_some, ok_bind] at h
      unfold StakeBatchReceipt.stake_tokens_issued at h
      cases h3 : checkedSub r.staked_near b.balance with
      | none =>
        simp only [h3, Option.map_none', liftOv_none, error_bind] at h
        exact Except.noConfusion h
      | some nr =>
        simp only [h3, Option.map_some', liftOv_some, ok_bind] at h
        split at h
        · cases h; exact ⟨rfl, rfl⟩
        · cases h; exact ⟨rfl, rfl⟩

/-- `x >>= f` on `Except` as an explicit match, for case splitting. -/
theorem bind_eq_match {α β : Type} (x : Except Err α) (f : α → Except Err β) :
    x >>= f = match x with | .error e => .error e | .ok a => f a := by
  cases x <;> rfl

/-- The stake-side claim pass touches neither the liquidity pool nor
`total_near`. -/
theorem claim_stake_batch_receipts_pool_total (c : Contract) (a : Account)
    (c₂ : Contract) (a₂ : Account) (fl : Bool)
    (h : claim_stake_batch_receipts c a = .ok (c₂, a₂, fl)) :
    c₂.near_liquidity_pool = c.near_liquidity_pool ∧ c₂.total_near = c.total_near := by
  unfold claim_stake_batch_receipts at h
  cases hb1 : a.stake_batch with
  | some b1 =>
    cases hr1 : mapGet c.stake_batch_receipts b1.id with
    | some r1 =>
      cases hcl1 : claim_stake_tokens_for_batch c a b1 r1 with
      | error e =>
        simp only [hb1, hr1, hcl1, error_bind] at h
        exact Except.noConfusion h
      | ok p1 =>
        obtain ⟨c1, a1⟩ := p1
        have hp1 := claim_stake_tokens_for_batch_pool_total c a b1 r1 c1 a1 hcl1
        simp only [hb1, hr1, hcl1, ok_bind] at h
        cases hb2 : a1.next_stake_batch with
        | some b2 =>
          cases hr2 : mapGet c1.stake_batch_receipts b2.id with
          | some r2 =>
            cases hcl2 : claim_stake_tokens_for_batch c1
                { near := a1.near, stake := a1.stake, stake_batch := none,
                  next_stake_batch := some b2,
                  redeem_stake_batch := a1.redeem_stake_batch,
                  next_redeem_stake_batch := a1.next_redeem_stake_batch } b2 r2 with
            | error e =>
              simp only [hb2, hr2, hcl2, error_bind] at h
              exact Except.noConfusion h
            | ok p2 =>
              obtain ⟨c2x, a2x⟩ := p2
              have hp2 := claim_stake_tokens_for_batch_pool_total c1
                { near := a1.near, stake := a1.stake, stake_batch := none,
                  next_stake_batch := some b2,
                  redeem_stake_batch := a1.redeem_stake_batch,
                  next_redeem_stake_batch := a1.next_redeem_stake_batch }
                b2 r2 c2x a2x hcl2
              simp only [hb2, hr2, hcl2, ok_bind] at h
              cases h
              exact ⟨hp2.1.trans hp1.1, hp2.2.trans hp1.2⟩
          | none =>
            simp only [hb2, hr2, ok_bind] at h
            cases h
            exact hp1
        | none =>
          simp only [hb2, ok_bind] at h
          cases h
          exact hp1
    | none =>
      simp only [hb1, hr1, ok_bind] at h
      cases hb2 : a.next_stake_batch with
      | some b2 =>
        cases hr2 : mapGet c.stake_batch_receipts b2.id with
        | some r2 =>
          cases hcl2 : claim_stake_tokens_for_batch c a b2 r2 with
          | error e =>
            simp only [hb2, hr2, hcl2, error_bind] at h
            exact Except.noConfusion h
          | ok p2 =>
            obtain ⟨c2x, a2x⟩ := p2
            have hp2 := claim_stake_tokens_for_batch_pool_total c a b2 r2 c2x a2x hcl2
            simp only [hb2, hr2, hcl2, ok_bind] at h
            cases h
            exact hp2
        | none =>
          simp only [hb2, hr2, ok_bind] at h
          cases h
          exact ⟨rfl, rfl⟩
      | none =>
        simp only [hb2, ok_bind] at h
        cases h
        exact ⟨rfl, rfl⟩
  | none =>
    simp only [hb1, ok_bind] at h
    cases hb2 : a.next_stake_batch with
    | some b2 =>
      cases hr2 : mapGet c.stake_batch_receipts b2.id with
      | some r2 =>
        cases hcl2 : claim_stake_tokens_for_batch c a b2 r2 with
        | error e =>
          simp only [hb2, hr2, hcl2, error_bind] at h
          exact Except.noConfusion h
        | ok p2 =>
          obtain ⟨c2x, a2x⟩ := p2
          have hp2 := claim_stake_tokens_for_batch_pool_total c a b2 r2 c2x a2x hcl2
          simp only [hb2, hr2, hcl2, ok_bind] at h
          cases h
          exact hp2
      | none =>
        simp only [hb2, hr2, ok_bind] at h
        cases h
        exact ⟨rfl, rfl⟩
    | none =>
      simp only [hb2, ok_bind] at h
      cases h
      exact ⟨rfl, rfl⟩

/-- An ordinary redeem-receipt claim touches neither the liquidity pool
nor `total_near`. -/
theorem claim_redeemed_stake_for_batch_pool_total (c : Contract) (a : Account)
    (b : Batch) (r : RedeemStakeBatchReceipt) (c₂ : Contract) (a₂ : Account)
    (h : claim_redeemed_stake_for_batch c a b r = .ok (c₂, a₂)) :
    c₂.near_liquidity_pool = c.near_liquidity_pool ∧
      c₂.total_near = c.total_near := by
  unfold claim_redeemed_stake_for_batch Account.apply_near_credit
    RedeemStakeBatchReceipt.stake_tokens_redeemed at h
  cases h1 : r.stake_token_value.stake_to_near b.balance with
  | none =>
    simp only [h1, liftOv_none, error_bind] at h
    exact Except.noConfusion h
  | some near =>
    simp only [h1, liftOv_some, ok_bind] at h
    cases h2 : checkedAdd (a.near.getD 0) near with
    | none =>
      simp only [h2, Option.map_none', liftOv_none, error_bind] at h
      exact Except.noConfusion h
    | some na =>
      simp only [h2, Option.map_some', liftOv_some, ok_bind] at h
      cases h3 : checkedSub r.redeemed_stake b.balance with
      | none =>
        simp only [h3, Option.map_none', liftOv_none, error_bind] at h
        exact Except.noConfusion h
      | some nr =>
        simp only [h3, Option.map_some', liftOv_some, ok_bind] at h
        split at h
        · cases h; exact ⟨rfl, rfl⟩
        · cases h; exact ⟨rfl, rfl⟩

/-- The liquidity-pool claim moves the claimed NEAR from the pool into
`total_near` one-for-one, preserving their sum. -/
theorem claim_pending_withdrawal_pool_total (c : Contract) (a : Account)
    (b : Batch) (r : RedeemStakeBatchReceipt) (c₂ : Contract) (a₂ : Account)
    (b₂ : Batch)
    (h : claim_redeemed_stake_for_batch_pending_withdrawal c a b r =
      .ok (c₂, a₂, b₂)) :
    c₂.near_liquidity_pool + c₂.total_near =
      c.near_liquidity_pool + c.total_near := by
  unfold claim_redeemed_stake_for_batch_pending_withdrawal
    Account.apply_near_credit RedeemStakeBatchReceipt.stake_tokens_redeemed
    Batch.remove Contract.pop_redeem_stake_batch at h
  cases h1 : r.stake_token_value.stake_to_near b.balance with
  | none =>
    simp only [h1, liftOv_none, error_bind] at h
    exact Except.noConfusion h
  | some v =>
    simp only [h1, liftOv_some, ok_bind] at h
    by_cases hvp : v ≤ c.near_liquidity_pool
    · simp only [if_pos hvp] at h
      cases h2 : r.stake_token_value.near_to_stake v with
      | none =>
        simp only [h2, liftOv_none, error_bind] at h
        exact Except.noConfusion h
      | some rs =>
        simp only [h2, liftOv_some, ok_bind] at h
        cases h3 : checkedSub b.balance rs with
        | none =>
          simp only [h3, Option.map_none', liftOv_none, error_bind] at h
          exact Except.noConfusion h
        | some nb =>
          simp only [h3, Option.map_some', liftOv_some, ok_bind] at h
          cases h4 : checkedAdd (a.near.getD 0) v with
          | none =>
            simp only [h4, Option.map_none', liftOv_none, error_bind] at h
            exact Except.noConfusion h
          | some na =>
            simp only [h4, Option.map_some', liftOv_some, ok_bind] at h
            cases h5 : checkedSub c.near_liquidity_pool v with
            | none =>
              simp only [h5, liftOv_none, error_bind] at h
              exact Except.noConfusion h
            | some pool2 =>
              simp only [h5, liftOv_some, ok_bind] at h
              cases h6 : checkedAdd c.total_near v with
              | none =>
                simp only [h6, liftOv_none, error_bind] at h
                exact Except.noConfusion h
              | some tn2 =>
                simp only [h6, liftOv_some, ok_bind] at h
                obtain ⟨hle5, hp5⟩ := checkedSub_eq_some h5
                obtain ⟨ht6, _⟩ := checkedAdd_eq_some h6
                cases h7 : checkedSub r.redeemed_stake rs with
                | none =>
                  simp only [h7, Option.map_none', liftOv_none, error_bind] at h
                  exact Except.noConfusion h
                | some nr =>
                  simp only [h7, Option.map_some', liftOv_some, ok_bind] at h
                  split at h
                  · cases h; simp; omega
                  · cases h; simp; omega
    · simp only [if_neg hvp] at h
      cases h2 : r.stake_token_value.near_to_stake c.near_liquidity_pool with
      | none =>
        simp only [h2, liftOv_none, error_bind] at h
        exact Except.noConfusion h
      | some rs =>
        simp only [h2, liftOv_some, ok_bind] at h
        cases h3 : checkedSub b.balance rs with
        | none =>
          simp only [h3, Option.map_none', liftOv_none, error_bind] at h
          exact Except.noConfusion h
        | some nb =>
          simp only [h3, Option.map_some', liftOv_some, ok_bind] at h
          cases h4 : checkedAdd (a.near.getD 0) c.near_liquidity_pool with
          | none =>
            simp only [h4, Option.map_none', liftOv_none, error_bind] at h
            exact Except.noConfusion h
          | some na =>
            simp only [h4, Option.map_some', liftOv_some, ok_bind] at h
            cases h5 : checkedSub c.near_liquidity_pool c.near_liquidity_pool with
            | none =>
              simp only [h5, liftOv_none, error_bind] at h
              exact Except.noConfusion h
            | some pool2 =>
              simp only [h5, liftOv_some, ok_bind] at h
              cases h6 : checkedAdd c.total_near c.near_liquidity_pool with
              | none =>
                simp only [h6, liftOv_none, error_bind] at h
                exact Except.noConfusion h
              | some tn2 =>
                simp only [h6, liftOv_some, ok_bind] at h
                obtain ⟨hle5, hp5⟩ := checkedSub_eq_some h5
                obtain ⟨ht6, _⟩ := checkedAdd_eq_some h6
                cases h7 : checkedSub r.redeemed_stake rs with
                | none =>
                  simp only [h7, Option.map_none', liftOv_none, error_bind] at h
                  exact Except.noConfusion h
                | some nr =>
                  simp only [h7, Option.map_some', liftOv_some, ok_bind] at h
                  split at h
                  · cases h; simp; omega
                  · cases h; simp; omega

/-- The pending-withdrawal pass over the current slot preserves
`near_liquidity_pool + total_near`. -/
theorem claim_redeem_pending_current_pool_total (c : Contract) (a : Account)
    (pid : Nat) (c₂ : Contract) (a₂ : Account) (fl : Bool)
    (h : claim_redeem_pending_current c a pid = .ok (c₂, a₂, fl)) :
    c₂.near_liquidity_pool + c₂.total_near =
      c.near_liquidity_pool + c.total_near := by
  unfold claim_redeem_pending_current at h
  cases hb : a.redeem_stake_batch with
  | none => simp only [hb] at h; cases h; rfl
  | some batch =>
    simp only [hb] at h
    by_cases hid : batch.id ≠ pid
    · simp only [if_pos hid] at h
      cases hm : mapGet c.redeem_stake_batch_receipts batch.id with
      | none => simp only [hm] at h; cases h; rfl
      | some receipt =>
        simp only [hm] at h
        cases hcl : claim_redeemed_stake_for_batch c a batch receipt with
        | error e =>
          simp only [hcl, error_bind] at h
          exact Except.noConfusion h
        | ok p =>
          obtain ⟨cx, ax⟩ := p
          have hp := claim_redeemed_stake_for_batch_pool_total c a batch receipt
            cx ax hcl
          simp only [hcl, ok_bind] at h
          cases h
          omega
    · simp only [if_neg hid] at h
      by_cases hp0 : 0 < c.near_liquidity_pool
      · simp only [if_pos hp0] at h
        cases hm : mapGet c.redeem_stake_batch_receipts batch.id with
        | none => simp only [hm] at h; cases h; rfl
        | some receipt =>
          simp only [hm] at h
          cases hcl : claim_redeemed_stake_for_batch_pending_withdrawal c a
              batch receipt with
          | error e =>
            simp only [hcl, error_bind] at h
            exact Except.noConfusion h
          | ok p =>
            obtain ⟨cx, ax, bx⟩ := p
            have hp := claim_pending_withdrawal_pool_total c a batch receipt
              cx ax bx hcl
            simp only [hcl, ok_bind] at h
            cases h
            omega
      · simp only [if_neg hp0] at h
        cases h
        rfl

/-- The pending-withdrawal pass over the next slot preserves
`near_liquidity_pool + total_near`. -/
theorem claim_redeem_pending_next_pool_total (c : Contract) (a : Account)
    (pid : Nat) (c₂ : Contract) (a₂ : Account) (fl : Bool)
    (h : claim_redeem_pending_next c a pid = .ok (c₂, a₂, fl)) :
    c₂.near_liquidity_pool + c₂.total_near =
      c.near_liquidity_pool + c.total_near := by
  unfold claim_redeem_pending_next at h
  cases hb : a.next_redeem_stake_batch with
  | none => simp only [hb] at h; cases h; rfl
  | some batch =>
    simp only [hb] at h
    by_cases hid : batch.id ≠ pid
    · simp only [if_pos hid] at h
      cases hm : mapGet c.redeem_stake_batch_receipts batch.id with
      | none => simp only [hm] at h; cases h; rfl
      | some receipt =>
        simp only [hm] at h
        cases hcl : claim_redeemed_stake_for_batch c a batch receipt with
        | error e =>
          simp only [hcl, error_bind] at h
          exact Except.noConfusion h
        | ok p =>
          obtain ⟨cx, ax⟩ := p
          have hp := claim_redeemed_stake_for_batch_pool_total c a batch receipt
            cx ax hcl
          simp only [hcl, ok_bind] at h
          cases h
          omega
    · simp only [if_neg hid] at h
      by_cases hp0 : 0 < c.near_liquidity_pool
      · simp only [if_pos hp0] at h
        cases hm : mapGet c.redeem_stake_batch_receipts batch.id with
        | none => simp only [hm] at h; cases h; rfl
        | some receipt =>
          simp only [hm] at h
          cases hcl : claim_redeemed_stake_for_batch_pending_withdrawal c a
              batch receipt with
          | error e =>
            simp only [hcl, error_bind] at h
            exact Except.noConfusion h
          | ok p =>
            obtain ⟨cx, ax, bx⟩ := p
            have hp := claim_pending_withdrawal_pool_total c a batch receipt
              cx ax bx hcl
            simp only [hcl, ok_bind] at h
            cases h
            omega
      · simp only [if_neg hp0] at h
        cases h
        rfl

/-- The unlocked pass over the current slot touches neither the pool nor
`total_near`. -/
theorem claim_redeem_unlocked_current_pool_total (c : Contract) (a : Account)
    (c₂ : Contract) (a₂ : Account) (fl : Bool)
    (h : claim_redeem_unlocked_current c a = .ok (c₂, a₂, fl)) :
    c₂.near_liquidity_pool + c₂.total_near =
      c.near_liquidity_pool + c.total_near := by
  unfold claim_redeem_unlocked_current at h
  cases hb : a.redeem_stake_batch with
  | none => simp only [hb] at h; cases h; rfl
  | some batch =>
    simp only [hb] at h
    cases hm : mapGet c.redeem_stake_batch_receipts batch.id with
    | none => simp only [hm] at h; cases h; rfl
    | some receipt =>
      simp only [hm] at h
      cases hcl : claim_redeemed_stake_for_batch c a batch receipt with
      | error e =>
        simp only [hcl, error_bind] at h
        exact Except.noConfusion h
      | ok p =>
        obtain ⟨cx, ax⟩ := p
        have hp := claim_redeemed_stake_for_batch_pool_total c a batch receipt
          cx ax hcl
        simp only [hcl, ok_bind] at h
        cases h
        omega

/-- The unlocked pass over the next slot touches neither the pool nor
`total_near`. -/
theorem claim_redeem_unlocked_next_pool_total (c : Contract) (a : Account)
    (c₂ : Contract) (a₂ : Account) (fl : Bool)
    (h : claim_redeem_unlocked_next c a = .ok (c₂, a₂, fl)) :
    c₂.near_liquidity_pool + c₂.total_near =
      c.near_liquidity_pool + c.total_near := by
  unfold claim_redeem_unlocked_next at h
  cases hb : a.next_redeem_stake_batch with
  | none => simp only [hb] at h; cases h; rfl
  | some batch =>
    simp only [hb] at h
    cases hm : mapGet c.redeem_stake_batch_receipts batch.id with
    | none => simp only [hm] at h; cases h; rfl
    | some receipt =>
      simp only [hm] at h
      cases hcl : claim_redeemed_stake_for_batch c a batch receipt with
      | error e =>
        simp only [hcl, error_bind] at h
        exact Except.noConfusion h
      | ok p =>
        obtain ⟨cx, ax⟩ := p
        have hp := claim_redeemed_stake_for_batch_pool_total c a batch receipt
          cx ax hcl
        simp only [hcl, ok_bind] at h
        cases h
        omega

/-- The redeem-side claim pass preserves the combined
`near_liquidity_pool + total_near`. -/
theorem claim_redeem_stake_batch_receipts_pool_total (c : Contract) (a : Account)
    (c₂ : Contract) (a₂ : Account) (fl : Bool)
    (h : claim_redeem_stake_batch_receipts c a = .ok (c₂, a₂, fl)) :
    c₂.near_liquidity_pool + c₂.total_near =
      c.near_liquidity_pool + c.total_near := by
  unfold claim_redeem_stake_batch_receipts at h
  cases hlk : c.redeem_stake_batch_lock with
  | none =>
    simp only [hlk] at h
    cases h1 : claim_redeem_unlocked_current c a with
    | error e =>
      simp only [h1, error_bind] at h
      exact Except.noConfusion h
    | ok p1 =>
      obtain ⟨c1, a1, f1⟩ := p1
      have hp1 := claim_redeem_unlocked_current_pool_total c a c1 a1 f1 h1
      simp only [h1, ok_bind] at h
      cases h2 : claim_redeem_unlocked_next c1 a1 with
      | error e =>
        simp only [h2, error_bind] at h
        exact Except.noConfusion h
      | ok p2 =>
        obtain ⟨c2x, a2x, f2⟩ := p2
        have hp2 := claim_redeem_unlocked_next_pool_total c1 a1 c2x a2x f2 h2
        simp only [h2, ok_bind] at h
        cases h
        omega
  | some lk =>
    cases lk with
    | Unstaking =>
      simp only [hlk] at h
      cases h
      rfl
    | PendingWithdrawal =>
      simp only [hlk] at h
      cases hpb : c.redeem_stake_batch with
      | none =>
        simp only [hpb, error_bind] at h
        exact Except.noConfusion h
      | some pb =>
        simp only [hpb, ok_bind] at h
        cases h1 : claim_redeem_pending_current c a pb.id with
        | error e =>
          simp only [h1, error_bind] at h
          exact Except.noConfusion h
        | ok p1 =>
          obtain ⟨c1, a1, f1⟩ := p1
          have hp1 := claim_redeem_pending_current_pool_total c a pb.id c1 a1 f1 h1
          simp only [h1, ok_bind] at h
          cases h2 : claim_redeem_pending_next c1 a1 pb.id with
          | error e =>
            simp only [h2, error_bind] at h
            exact Except.noConfusion h
          | ok p2 =>
            obtain ⟨c2x, a2x, f2⟩ := p2
            have hp2 := claim_redeem_pending_next_pool_total c1 a1 pb.id c2x a2x
              f2 h2
            simp only [h2, ok_bind] at h
            cases h
            omega

/-- `claim_receipt_funds` preserves `near_liquidity_pool + total_near`. -/
theorem claim_receipt_funds_pool_total (c : Contract) (a : Account)
    (c₂ : Contract) (a₂ : Account) (fl : Bool)
    (h : claim_receipt_funds c a = .ok (c₂, a₂, fl)) :
    c₂.near_liquidity_pool + c₂.total_near =
      c.near_liquidity_pool + c.total_near := by
  unfold claim_receipt_funds at h
  cases h1 : claim_stake_batch_receipts c a with
  | error e =>
    simp only [h1, error_bind] at h
    exact Except.noConfusion h
  | ok p1 =>
    obtain ⟨c1, a1, f1⟩ := p1
    have hp1 := claim_stake_batch_receipts_pool_total c a c1 a1 f1 h1
    simp only [h1, ok_bind] at h
    cases h2 : claim_redeem_stake_batch_receipts c1 a1 with
    | error e =>
      simp only [h2, error_bind] at h
      exact Except.noConfusion h
    | ok p2 =>
      obtain ⟨c2x, a2x, f2⟩ := p2
      have hp2 := claim_redeem_stake_batch_receipts_pool_total c1 a1 c2x a2x f2 h2
      simp only [h2, ok_bind] at h
      cases h
      omega

/-- C10: for every NEAR withdrawal/transfer of `m` by an account, receipts
are settled first; the account's (settled) NEAR balance is debited by
exactly `m`; when `total_near` cannot cover `m` the shortfall is drawn from
the liquidity pool (the call aborts when the pool cannot cover it, leaving
no state change), and the pool is untouched when `total_near` suffices;
across the whole operation `near_liquidity_pool + total_near` decreases by
exactly `m`; and `transfer_near_funds` performs the identical ledger
mutation. -/
theorem c10_withdraw_liquidity_conservation (c : Contract) (a : Account)
    (m : Nat) (c' : Contract) (a' : Account) (bcl : Bool)
    (hclaim : claim_receipt_funds c a = .ok (c', a', bcl))
    (bal : Nat) (hnear : a'.near = some bal) (hb128 : bal < U128_BOUND)
    (hbal : m ≤ bal) :
    ((c'.total_near < m → m - c'.total_near ≤ c'.near_liquidity_pool) →
      ∃ c₂ a₂, withdraw_near_funds c a m = .ok (c₂, a₂) ∧
        a₂.near = (if bal - m = 0 then none else some (bal - m)) ∧
        c₂.near_liquidity_pool + c₂.total_near + m =
          c.near_liquidity_pool + c.total_near ∧
        (m ≤ c'.total_near →
          c₂.near_liquidity_pool = c'.near_liquidity_pool)) ∧
    (c'.total_near < m → c'.near_liquidity_pool < m - c'.total_near →
      withdraw_near_funds c a m = .error .overflow) ∧
    transfer_near_funds c a m = withdraw_near_funds c a m := by
  have hsum := claim_receipt_funds_pool_total c a c' a' bcl hclaim
  refine ⟨?_, ?_, ?_⟩
  · intro hpool
    by_cases hlt : c'.total_near < m
    · have hd1 : m - c'.total_near ≤ c'.near_liquidity_pool := hpool hlt
      have hd2 : c'.total_near + (m - c'.total_near) < U128_BOUND := by omega
      have hd3 : m ≤ c'.total_near + (m - c'.total_near) := by omega
      refine ⟨{ c' with
          near_liquidity_pool :=
            c'.near_liquidity_pool - (m - c'.total_near)
          total_near := c'.total_near + (m - c'.total_near) - m },
        { a' with near := if bal - m = 0 then none else some (bal - m) },
        ?_, rfl, by simp; omega, by intro hle; exact absurd hle (by omega)⟩
      unfold withdraw_near_funds Account.apply_near_debit
      simp only [hclaim, ok_bind, hnear, if_pos hbal, ok_bind, if_pos hlt,
        checkedSub, if_pos hd1, liftOv_some, ok_bind, checkedAdd, if_pos hd2,
        liftOv_some, ok_bind, if_pos hd3]
    · have hle : m ≤ c'.total_near := Nat.le_of_not_lt hlt
      refine ⟨{ c' with total_near := c'.total_near - m },
        { a' with near := if bal - m = 0 then none else some (bal - m) },
        ?_, rfl, by simp; omega, fun _ => rfl⟩
      unfold withdraw_near_funds Account.apply_near_debit
      simp only [hclaim, ok_bind, hnear, if_pos hbal, ok_bind, if_neg hlt,
        checkedSub, if_pos hle, liftOv_some, ok_bind]
  · intro hlt hpoor
    have hd : ¬ (m - c'.total_near ≤ c'.near_liquidity_pool) := by omega
    unfold withdraw_near_funds Account.apply_near_debit
    simp only [hclaim, ok_bind, hnear, if_pos hbal, ok_bind, if_pos hlt,
      checkedSub, if_neg hd, liftOv_none, error_bind]
  · unfold transfer_near_funds withdraw_near_funds
    rfl

/-- C10 witness: the theorem applied at `total_near = 5`, pool of 10, an
account balance of 8 and a withdrawal of 8: the shortfall of 3 is drawn
from the pool and the combined pool + `total_near` drops by exactly 8. -/
theorem c10_withdraw_liquidity_conservation_witness :
    (∃ c₂ a₂,
      withdraw_near_funds
        { emptyContract with total_near := 5, near_liquidity_pool := 10 }
        { Account.new with near := some 8 } 8 = .ok (c₂, a₂) ∧
      a₂.near = (if 8 - 8 = 0 then none else some (8 - 8)) ∧
      c₂.near_liquidity_pool + c₂.total_near + 8 = 10 + 5 ∧
      (8 ≤ (5 : Nat) → c₂.near_liquidity_pool = 10)) ∧
    transfer_near_funds
        { emptyContract with total_near := 5, near_liquidity_pool := 10 }
        { Account.new with near := some 8 } 8 =
      withdraw_near_funds
        { emptyContract with total_near := 5, near_liquidity_pool := 10 }
        { Account.new with near := some 8 } 8 := by
  have h := c10_withdraw_liquidity_conservation
    { emptyContract with total_near := 5, near_liquidity_pool := 10 }
    { Account.new with near := some 8 } 8
    { emptyContract with total_near := 5, near_liquidity_pool := 10 }
    { Account.new with near := some 8 } false (by decide)
    8 rfl (by decide) (by decide)
  exact ⟨h.1 (by intro hy; decide), h.2.2⟩

end StakeToken